import Mathlib

/-
Verification of the Finance-Note record store (an Obsidian plugin that keeps
transactions, budgets and recurring transactions as structured markdown text).

Shallow embedding notes:
* JavaScript strings are modeled as Lean `String`/`List Char`; the JS string
  operations used by the sources (`split`, `startsWith`, `includes`, `trim`,
  template literals) are re-implemented below as structural functions on
  `List Char` so that everything is executable and kernel-reducible.
  JS `<` on strings compares UTF-16 code units; we use code-point
  lexicographic order, which agrees on all BMP strings used here.
* JS numbers are modeled as `Int`.  All amounts written and read by the
  plugin's own codec are decimal integer literals in this model; `NaN`
  (the result of `parseFloat` on a non-numeric string, or of arithmetic on
  `NaN`) is modeled as `none : Option Int`.  `undefined` string fields are
  `none : Option String`.
* JS `Date` is modeled by its calendar value `SDate` (year/month/day);
  an invalid date (`new Date` on unparseable input) is `none : Option SDate`.
* The Obsidian vault is modeled as a map from year to the optional text of
  that year's document, one map per record kind.  All I/O succeeds; reads
  of existing files return the stored text, `create` stores text.
* `crypto.randomUUID` is nondeterministic; each operation that calls it
  takes the generated id as an explicit argument.
-/

namespace FinanceNote

/-! ### JS string primitives on `List Char` -/

/-- JS `String.prototype.startsWith` on char lists (first arg: the sought text). -/
def startsWithL : List Char → List Char → Bool
  | [], _ => true
  | _ :: _, [] => false
  | p :: ps, c :: cs => p = c && startsWithL ps cs

/-- JS `String.prototype.includes` on char lists (first arg: the sought text). -/
def containsL (sub : List Char) : List Char → Bool
  | [] => sub.isEmpty
  | c :: cs => startsWithL sub (c :: cs) || containsL sub cs

/-- Prepend a char to the first token of a token list (helper for the splits). -/
def consHead (c : Char) : List (List Char) → List (List Char)
  | [] => [[c]]
  | t :: ts => (c :: t) :: ts

/-- JS `split` with a one-char separator (used for `'\n'` and `'-'`). -/
def split1 (a : Char) : List Char → List (List Char)
  | [] => [[]]
  | c :: cs => if c = a then [] :: split1 a cs else consHead c (split1 a cs)

/-- JS `split` with a two-char separator (used for `': '`).  JS `split` cuts at
every non-overlapping occurrence of the separator, scanning left to right. -/
def split2 (a b : Char) : List Char → List (List Char)
  | [] => [[]]
  | [c] => [[c]]
  | c :: d :: rest =>
    if c = a ∧ d = b then [] :: split2 a b rest
    else consHead c (split2 a b (d :: rest))

/-- JS `split`/lazy-regex cut with a three-char separator (used for `' - '`). -/
def split3 (a b c : Char) : List Char → List (List Char)
  | [] => [[]]
  | [x] => [[x]]
  | [x, y] => [[x, y]]
  | x :: y :: z :: rest =>
    if x = a ∧ y = b ∧ z = c then [] :: split3 a b c rest
    else consHead x (split3 a b c (y :: z :: rest))

/-- JS `String.prototype.trim` on char lists. -/
def trimL (l : List Char) : List Char :=
  ((l.dropWhile Char.isWhitespace).reverse.dropWhile Char.isWhitespace).reverse

/-- JS `Array.prototype.join('\n')`. -/
def joinNl : List String → String
  | [] => ""
  | [s] => s
  | s :: t :: rest => s ++ "\n" ++ joinNl (t :: rest)

/-- The lines of a document, as char lists (`content.split('\n')`). -/
def linesOf (content : String) : List (List Char) :=
  split1 '\n' content.data

/-! ### JS numbers (modeled on `Int`) -/

/-- The ASCII digit character for `n < 10`. -/
def digitChar (n : Nat) : Char := Char.ofNat (48 + n)

/-- Fuel-driven decimal printing (most significant digit first). -/
def printNatAux : Nat → Nat → List Char → List Char
  | 0, _, acc => acc
  | fuel + 1, n, acc =>
    if n < 10 then digitChar n :: acc
    else printNatAux fuel (n / 10) (digitChar (n % 10) :: acc)

/-- Decimal digits of `n`, as JS `String(n)` produces for naturals. -/
def printNat (n : Nat) : List Char := printNatAux (n + 1) n []

/-- JS number-to-string conversion, restricted to integral values. -/
def printInt (i : Int) : List Char :=
  if i < 0 then '-' :: printNat i.natAbs else printNat i.toNat

/-- `String(n)` for a natural. -/
def natToString (n : Nat) : String := ⟨printNat n⟩

/-- `String(i)` for an integral JS number. -/
def intToString (i : Int) : String := ⟨printInt i⟩

/-- Accumulate the value of the maximal leading digit run. -/
def leadNatAux : List Char → Nat → Nat
  | [], acc => acc
  | c :: cs, acc =>
    if c.isDigit then leadNatAux cs (acc * 10 + (c.toNat - 48)) else acc

/-- Value of the leading digit run; `none` when the first char is not a digit. -/
def jsLeadNat (l : List Char) : Option Nat :=
  match l with
  | [] => none
  | c :: _ => if c.isDigit then some (leadNatAux l 0) else none

/-- JS `parseFloat`, restricted to integral values: skips leading whitespace,
reads an optional sign and the maximal leading digit run, ignores the rest;
`NaN` (here `none`) when no digits lead.  `parseFloat(undefined)` is `NaN`. -/
def jsParseFloatInt (v : Option String) : Option Int :=
  match v with
  | none => none
  | some s =>
    match (s.data.dropWhile Char.isWhitespace) with
    | [] => none
    | c :: rest =>
      if c = '-' then (jsLeadNat rest).map (fun n => -(n : Int))
      else (jsLeadNat (c :: rest)).map (fun n => (n : Int))

/-- A numeral made of digits only (used by the ISO date parser): its value,
or `none` if empty or containing a non-digit. -/
def allDigitsNat (l : List Char) : Option Nat :=
  if l ≠ [] ∧ l.all Char.isDigit then some (leadNatAux l 0) else none

/-! ### Calendar dates (JS `Date` by calendar value) -/

/-- A calendar date.  JS `Date` objects are compared and round-tripped by
calendar value in this development. -/
structure SDate where
  year : Nat
  month : Nat
  day : Nat
deriving DecidableEq, Repr

/-- An invalid JS `Date` (e.g. `new Date("botched")`) is `none`. -/
def JsDate := Option SDate
deriving DecidableEq, Repr

def isLeapYear (y : Nat) : Bool :=
  y % 4 = 0 && (y % 100 ≠ 0 || y % 400 = 0)

def daysInMonth (y m : Nat) : Nat :=
  if m = 2 then (if isLeapYear y then 29 else 28)
  else if m = 4 ∨ m = 6 ∨ m = 9 ∨ m = 11 then 30
  else 31

/-- The dates the plugin can faithfully store: real calendar dates with a
four-digit year. -/
def isValidSDate (d : SDate) : Bool :=
  1 ≤ d.year && d.year ≤ 9999 && 1 ≤ d.month && d.month ≤ 12 &&
    1 ≤ d.day && d.day ≤ daysInMonth d.year d.month

/-- Left-pad with `'0'` to width `k`. -/
def padZero (k : Nat) (l : List Char) : List Char :=
  List.replicate (k - l.length) '0' ++ l

/-- date-fns `format(date, 'yyyy-MM-dd')`. -/
def formatSDate (d : SDate) : String :=
  ⟨padZero 4 (printNat d.year) ++ '-' :: padZero 2 (printNat d.month) ++
    '-' :: padZero 2 (printNat d.day)⟩

/-- JS `new Date(string)` on the ISO `yyyy-MM-dd` shapes this plugin writes;
anything else (including an empty string) yields an invalid date. -/
def parseYmdL (l : List Char) : JsDate :=
  match split1 '-' l with
  | [ys, ms, ds] =>
    match allDigitsNat ys, allDigitsNat ms, allDigitsNat ds with
    | some y, some m, some d =>
      if 1 ≤ m ∧ m ≤ 12 ∧ 1 ≤ d ∧ d ≤ daysInMonth y m then some ⟨y, m, d⟩
      else none
    | _, _, _ => none
  | _ => none

/-- `new Date(value)` where `value` may be `undefined`. -/
def jsNewDate (v : Option String) : JsDate :=
  match v with
  | none => none
  | some s => parseYmdL s.data

/-- Calendar order on valid dates; comparisons against an invalid date are
false (JS `NaN` comparisons). -/
def sdateLeB (a b : SDate) : Bool :=
  if a.year ≠ b.year then a.year < b.year
  else if a.month ≠ b.month then a.month < b.month
  else a.day ≤ b.day

def jsDateLe (a b : JsDate) : Bool :=
  match a, b with
  | some a, some b => sdateLeB a b
  | _, _ => false

/-! ### Record types (src/types/Transaction.ts, Budget.ts, RecurringTransaction.ts) -/

/-- `interface Transaction` — `description?` is optional, the rest required. -/
structure Transaction where
  id : String
  date : SDate
  amount : Int
  type_ : String
  category : String
  account : String
  description : Option String
  currency : String
deriving DecidableEq, Repr

/-- `interface Budget` (`status?` is never read or written by the codec). -/
structure Budget where
  id : String
  amount : Int
  category : String
  period : String
  description : Option String
  status : Option String
  currency : String
deriving DecidableEq, Repr

/-- `interface RecurringTransaction`. -/
structure RecurringTransaction where
  id : String
  amount : Int
  type_ : String
  category : String
  account : String
  description : Option String
  frequency : String
  startDate : SDate
  endDate : Option SDate
  currency : String
deriving DecidableEq, Repr

/-- JS template-literal interpolation of a possibly-`undefined` string:
`${undefined}` renders as the text `undefined`. -/
def jsTemplateStr (o : Option String) : String :=
  match o with
  | some s => s
  | none => "undefined"

/-! ### Parsed (runtime) records

`parse*FromContent` builds each record as a plain object, setting one key per
recognized field line, and casts it to the interface type at the end; so a
decoded record can lack keys, hold `NaN` amounts, invalid dates or
`undefined` field values.  Each field below is `none` when the key was never
assigned; the inner option models `NaN` / invalid / `undefined` values. -/

structure TxP where
  date : Option JsDate
  amount : Option (Option Int)
  type_ : Option (Option String)
  category : Option (Option String)
  account : Option (Option String)
  description : Option (Option String)
  currency : Option (Option String)
  id : Option (Option String)
deriving DecidableEq, Repr

def TxP.empty : TxP := ⟨none, none, none, none, none, none, none, none⟩

/-- `Object.keys(currentTransaction).length > 0`. -/
def TxP.hasKeys (p : TxP) : Bool :=
  p.date.isSome || p.amount.isSome || p.type_.isSome || p.category.isSome ||
    p.account.isSome || p.description.isSome || p.currency.isSome || p.id.isSome

structure BudgetP where
  amount : Option (Option Int)
  category : Option (Option String)
  period : Option (Option String)
  description : Option (Option String)
  currency : Option (Option String)
  id : Option (Option String)
deriving DecidableEq, Repr

def BudgetP.empty : BudgetP := ⟨none, none, none, none, none, none⟩

def BudgetP.hasKeys (p : BudgetP) : Bool :=
  p.amount.isSome || p.category.isSome || p.period.isSome ||
    p.description.isSome || p.currency.isSome || p.id.isSome

structure RecP where
  amount : Option (Option Int)
  type_ : Option (Option String)
  category : Option (Option String)
  account : Option (Option String)
  description : Option (Option String)
  frequency : Option (Option String)
  startDate : Option JsDate
  endDate : Option (Option JsDate)
  currency : Option (Option String)
  id : Option (Option String)
deriving DecidableEq, Repr

def RecP.empty : RecP := ⟨none, none, none, none, none, none, none, none, none, none⟩

def RecP.hasKeys (p : RecP) : Bool :=
  p.amount.isSome || p.type_.isSome || p.category.isSome || p.account.isSome ||
    p.description.isSome || p.frequency.isSome || p.startDate.isSome ||
    p.endDate.isSome || p.currency.isSome || p.id.isSome

/-- The runtime object a repository pushes into its cache for a freshly
constructed `Transaction` (all keys present; an optional `description`
constructed as `value || undefined` is present holding `undefined`). -/
def Transaction.toParsed (t : Transaction) : TxP :=
  { date := some (some t.date), amount := some (some t.amount),
    type_ := some (some t.type_), category := some (some t.category),
    account := some (some t.account), description := some t.description,
    currency := some (some t.currency), id := some (some t.id) }

def Budget.toParsed (b : Budget) : BudgetP :=
  { amount := some (some b.amount), category := some (some b.category),
    period := some (some b.period), description := some b.description,
    currency := some (some b.currency), id := some (some b.id) }

def RecurringTransaction.toParsed (r : RecurringTransaction) : RecP :=
  { amount := some (some r.amount), type_ := some (some r.type_),
    category := some (some r.category), account := some (some r.account),
    description := some r.description, frequency := some (some r.frequency),
    startDate := some (some r.startDate),
    endDate := some (r.endDate.map (fun d => some d)),
    currency := some (some r.currency), id := some (some r.id) }

/-! ### The block codec -/

/-- `line.slice(2).split(': ').map(s => s.trim())` destructured into
`[key, value]`: `key` is the first part, `value` the second if it exists
(`undefined` otherwise — JS `split` cuts at EVERY occurrence of `': '`,
so everything from the second `': '` on is dropped by the destructuring). -/
def lineKV (body : List Char) : List Char × Option String :=
  let parts := (split2 ':' ' ' body).map trimL
  (parts.headD [], ((parts.drop 1).head?).map (fun l => (⟨l⟩ : String)))

/-- One `- Label: value` line of a Transaction block
(`TransactionService.parseTransactionsFromContent`, switch over labels). -/
def applyTxField (cur : TxP) (body : List Char) : TxP :=
  let kv := lineKV body
  let key := kv.1
  let value := kv.2
  if key = "Date".data then { cur with date := some (jsNewDate value) }
  else if key = "Amount".data then { cur with amount := some (jsParseFloatInt value) }
  else if key = "Type".data then { cur with type_ := some value }
  else if key = "Category".data then { cur with category := some value }
  else if key = "Account".data then { cur with account := some value }
  else if key = "Description".data then { cur with description := some value }
  else if key = "Currency".data then { cur with currency := some value }
  else if key = "ID".data then { cur with id := some value }
  else cur

/-- The line loop of `parseTransactionsFromContent`: a `## ` line flushes the
current accumulator (when it has keys) and resets it; a `- ` line assigns a
field; the final accumulator is flushed at end of input. -/
def parseTxLoop : List (List Char) → TxP → List TxP
  | [], cur => if cur.hasKeys then [cur] else []
  | l :: rest, cur =>
    if startsWithL "## ".data l then
      (if cur.hasKeys then [cur] else []) ++ parseTxLoop rest TxP.empty
    else if startsWithL "- ".data l then
      parseTxLoop rest (applyTxField cur (l.drop 2))
    else
      parseTxLoop rest cur

/-- `TransactionService.parseTransactionsFromContent`. -/
def parseTransactionsFromContent (content : String) : List TxP :=
  parseTxLoop (linesOf content) TxP.empty

/-- The lines of the template literal in `TransactionService.formatTransaction`
(the block ends with a blank line, i.e. the string ends in two newlines). -/
def formatTransactionLines (t : Transaction) : List String :=
  ["## Transaction " ++ t.id,
   "",
   "- Date: " ++ formatSDate t.date,
   "- Amount: " ++ intToString t.amount,
   "- Type: " ++ t.type_,
   "- Category: " ++ t.category,
   "- Account: " ++ t.account,
   "- Description: " ++ jsTemplateStr t.description,
   "- Currency: " ++ t.currency,
   "- ID: " ++ t.id,
   "",
   ""]

/-- `TransactionService.formatTransaction`. -/
def formatTransaction (t : Transaction) : String :=
  joinNl (formatTransactionLines t)

/-- One `- Label: value` line of a Budget block
(`BudgetService.parseBudgetsFromContent`). -/
def applyBudgetField (cur : BudgetP) (body : List Char) : BudgetP :=
  let kv := lineKV body
  let key := kv.1
  let value := kv.2
  if key = "Amount".data then { cur with amount := some (jsParseFloatInt value) }
  else if key = "Category".data then { cur with category := some value }
  else if key = "Period".data then { cur with period := some value }
  else if key = "Description".data then { cur with description := some value }
  else if key = "Currency".data then { cur with currency := some value }
  else if key = "ID".data then { cur with id := some value }
  else cur

def parseBudgetLoop : List (List Char) → BudgetP → List BudgetP
  | [], cur => if cur.hasKeys then [cur] else []
  | l :: rest, cur =>
    if startsWithL "## ".data l then
      (if cur.hasKeys then [cur] else []) ++ parseBudgetLoop rest BudgetP.empty
    else if startsWithL "- ".data l then
      parseBudgetLoop rest (applyBudgetField cur (l.drop 2))
    else
      parseBudgetLoop rest cur

/-- `BudgetService.parseBudgetsFromContent`. -/
def parseBudgetsFromContent (content : String) : List BudgetP :=
  parseBudgetLoop (linesOf content) BudgetP.empty

/-- `BudgetService.formatBudget` — note `${budget.description || ''}`. -/
def formatBudgetLines (b : Budget) : List String :=
  ["## Budget " ++ b.id,
   "",
   "- Amount: " ++ intToString b.amount,
   "- Category: " ++ b.category,
   "- Period: " ++ b.period,
   "- Description: " ++ (b.description.getD ""),
   "- Currency: " ++ b.currency,
   "- ID: " ++ b.id,
   "",
   ""]

def formatBudget (b : Budget) : String :=
  joinNl (formatBudgetLines b)

/-- `'End Date': value ? new Date(value) : undefined` (an absent or empty
value is falsy and leaves the assigned value `undefined`). -/
def endDateVal (value : Option String) : Option JsDate :=
  match value with
  | none => none
  | some s => if s = "" then none else some (parseYmdL s.data)

/-- One `- Label: value` line of a Recurring Transaction block
(`RecurringTransactionService.parseRecurringTransactionsFromContent`). -/
def applyRecField (cur : RecP) (body : List Char) : RecP :=
  let kv := lineKV body
  let key := kv.1
  let value := kv.2
  if key = "Amount".data then { cur with amount := some (jsParseFloatInt value) }
  else if key = "Type".data then { cur with type_ := some value }
  else if key = "Category".data then { cur with category := some value }
  else if key = "Account".data then { cur with account := some value }
  else if key = "Description".data then { cur with description := some value }
  else if key = "Frequency".data then { cur with frequency := some value }
  else if key = "Start Date".data then { cur with startDate := some (jsNewDate value) }
  else if key = "End Date".data then { cur with endDate := some (endDateVal value) }
  else if key = "Currency".data then { cur with currency := some value }
  else if key = "ID".data then { cur with id := some value }
  else cur

def parseRecLoop : List (List Char) → RecP → List RecP
  | [], cur => if cur.hasKeys then [cur] else []
  | l :: rest, cur =>
    if startsWithL "## ".data l then
      (if cur.hasKeys then [cur] else []) ++ parseRecLoop rest RecP.empty
    else if startsWithL "- ".data l then
      parseRecLoop rest (applyRecField cur (l.drop 2))
    else
      parseRecLoop rest cur

/-- `RecurringTransactionService.parseRecurringTransactionsFromContent`. -/
def parseRecurringTransactionsFromContent (content : String) : List RecP :=
  parseRecLoop (linesOf content) RecP.empty

/-- `RecurringTransactionService.formatRecurringTransaction`. -/
def formatRecurringTransactionLines (r : RecurringTransaction) : List String :=
  ["## Recurring Transaction " ++ r.id,
   "",
   "- Amount: " ++ intToString r.amount,
   "- Type: " ++ r.type_,
   "- Category: " ++ r.category,
   "- Account: " ++ r.account,
   "- Description: " ++ jsTemplateStr r.description,
   "- Frequency: " ++ r.frequency,
   "- Start Date: " ++ formatSDate r.startDate,
   "- End Date: " ++ (match r.endDate with | some d => formatSDate d | none => ""),
   "- Currency: " ++ r.currency,
   "- ID: " ++ r.id,
   "",
   ""]

def formatRecurringTransaction (r : RecurringTransaction) : String :=
  joinNl (formatRecurringTransactionLines r)

/-! ### The vault and the repository services

Each service owns one document per year (`<root>/<year>/<kind>.finance.md`);
the vault is modeled as one year-indexed map per kind.  Every operation
returns its result, the updated vault, the updated in-memory state, and the
ordered trace of externally visible actions (document creations, document
writes, event-bus emissions). -/

inductive RKind
  | tx
  | budget
  | recur
deriving DecidableEq, Repr

structure Store where
  txDocs : Nat → Option String
  budgetDocs : Nat → Option String
  recDocs : Nat → Option String

inductive Act
  | create (kind : RKind) (year : Nat) (content : String)
  | modify (kind : RKind) (year : Nat) (content : String)
  | emit (event : String)
deriving DecidableEq, Repr

def Act.isEmit : Act → Bool
  | .emit _ => true
  | _ => false

def Act.isWrite : Act → Bool
  | .create _ _ _ => true
  | .modify _ _ _ => true
  | .emit _ => false

def Store.putTx (s : Store) (y : Nat) (c : String) : Store :=
  { s with txDocs := fun n => if n = y then some c else s.txDocs n }

def Store.putBudget (s : Store) (y : Nat) (c : String) : Store :=
  { s with budgetDocs := fun n => if n = y then some c else s.budgetDocs n }

def Store.putRec (s : Store) (y : Nat) (c : String) : Store :=
  { s with recDocs := fun n => if n = y then some c else s.recDocs n }

/-- The `EVENT_TYPES` constants of `src/services/EventBus.ts`. -/
def TRANSACTION_CHANGED : String := "transaction-changed"
def BUDGET_CHANGED : String := "budget-changed"
def RECURRING_TRANSACTION_CHANGED : String := "recurring-transaction-changed"

/-- `getYear` of a JS date; the invalid-date (`NaN`) path would build a
`.../NaN/...` file path, which no theorem below exercises — year `0` stands
in for it. -/
def jsYearOf : JsDate → Nat
  | some d => d.year
  | none => 0

/-- `query?.year || currentYear`: `undefined` and `0` are both falsy. -/
def jsYearOr (q : Option Nat) (currentYear : Nat) : Nat :=
  match q with
  | some y => if y = 0 then currentYear else y
  | none => currentYear

/-- Operation outcome: result (or thrown error), vault, service state, trace. -/
structure Out (α σ : Type) where
  result : Except String α
  store : Store
  state : σ
  acts : List Act

def strOfChars (l : List Char) : String := ⟨l⟩

/-! #### TransactionService -/

structure TxState where
  transactions : List TxP
  initialized : Bool
deriving Repr

def getInitialTxContent (year : Nat) : String :=
  "# " ++ natToString year ++ " Transactions\n\n"

/-- `getOrCreateFinanceFile` + the `vault.read` that always follows it:
returns the document text, creating the document (with its title header)
when absent. -/
def getOrCreateTxFile (s : Store) (year : Nat) : String × Store × List Act :=
  match s.txDocs year with
  | some c => (c, s, [])
  | none =>
    let init := getInitialTxContent year
    (init, s.putTx year init, [.create RKind.tx year init])

/-- `loadTransactions`: read and decode the wall-clock current year's file. -/
def loadTransactions (s : Store) (currentYear : Nat) :
    List TxP × Store × List Act :=
  let g := getOrCreateTxFile s currentYear
  (parseTransactionsFromContent g.1, g.2.1, g.2.2)

/-- `TransactionService.initialize` (idempotent first load). -/
def initTxService (currentYear : Nat) (s : Store) (st : TxState) : Out Unit TxState :=
  if st.initialized then ⟨.ok (), s, st, []⟩
  else
    let r := loadTransactions s currentYear
    ⟨.ok (), r.2.1, { transactions := r.1, initialized := true }, r.2.2⟩

/-- The record-content fields of a transaction to add (`Omit<Transaction, 'id'>`). -/
structure TxInput where
  date : SDate
  amount : Int
  type_ : String
  category : String
  account : String
  description : Option String
  currency : String
deriving DecidableEq, Repr

def mkTransaction (i : TxInput) (newId : String) : Transaction :=
  { id := newId, date := i.date, amount := i.amount, type_ := i.type_,
    category := i.category, account := i.account,
    description := i.description, currency := i.currency }

/-- `addTransactionToContent`: append the encoded block to the document of
the transaction's own year. -/
def addTransactionToContent (s : Store) (t : Transaction) : Store × List Act :=
  let year := t.date.year
  let g := getOrCreateTxFile s year
  let newContent := g.1 ++ formatTransaction t
  ((g.2.1).putTx year newContent, g.2.2 ++ [.modify RKind.tx year newContent])

/-- Is this line the header of the block of the record with this id?
(`line.startsWith('## Transaction ') && line.includes(id)`). -/
def isTxHeaderFor (id : String) (l : List Char) : Bool :=
  startsWithL "## Transaction ".data l && containsL id.data l

def isTxHeader (l : List Char) : Bool :=
  startsWithL "## Transaction ".data l

/-- `updateTransactionInContent`: locate the block by header, splice the new
block over it (up to the next header), rejoin; no write when not found. -/
def updateTransactionInContent (s : Store) (t : Transaction) : Store × List Act :=
  let year := t.date.year
  let g := getOrCreateTxFile s year
  let ls := linesOf g.1
  match ls.findIdx? (isTxHeaderFor t.id) with
  | none => (g.2.1, g.2.2)
  | some i =>
    let endIndex := match (ls.drop (i + 1)).findIdx? isTxHeader with
      | none => ls.length
      | some k => i + 1 + k
    let newContent := joinNl ((ls.take i).map strOfChars ++ [formatTransaction t] ++
      (ls.drop endIndex).map strOfChars)
    ((g.2.1).putTx year newContent, g.2.2 ++ [.modify RKind.tx year newContent])

/-- `deleteTransactionFromContent`: locate the block by header and remove it
(up to the next header); no write when not found. -/
def deleteTransactionFromContent (s : Store) (id : String) (date : JsDate) :
    Store × List Act :=
  let year := jsYearOf date
  let g := getOrCreateTxFile s year
  let ls := linesOf g.1
  match ls.findIdx? (isTxHeaderFor id) with
  | none => (g.2.1, g.2.2)
  | some i =>
    let endIndex := match (ls.drop (i + 1)).findIdx? isTxHeader with
      | none => ls.length
      | some k => i + 1 + k
    let newContent := joinNl ((ls.take i).map strOfChars ++
      (ls.drop endIndex).map strOfChars)
    ((g.2.1).putTx year newContent, g.2.2 ++ [.modify RKind.tx year newContent])

/-- `TransactionService.addTransaction`: write, reload the whole current
year from the store, then emit `transaction-changed`. -/
def addTransaction (currentYear : Nat) (s : Store) (st : TxState)
    (input : TxInput) (newId : String) : Out Transaction TxState :=
  let t := mkTransaction input newId
  let w := addTransactionToContent s t
  let r := loadTransactions w.1 currentYear
  ⟨.ok t, r.2.1, { st with transactions := r.1 },
    w.2 ++ r.2.2 ++ [.emit TRANSACTION_CHANGED]⟩

/-- `TransactionService.updateTransaction`: throws before any write when the
id is not in the cache; otherwise splice-write, reload, emit. -/
def updateTransaction (currentYear : Nat) (s : Store) (st : TxState)
    (t : Transaction) : Out Transaction TxState :=
  match st.transactions.findIdx? (fun p => p.id == some (some t.id)) with
  | none => ⟨.error "Transaction not found", s, st, []⟩
  | some _ =>
    let w := updateTransactionInContent s t
    let r := loadTransactions w.1 currentYear
    ⟨.ok t, r.2.1, { st with transactions := r.1 },
      w.2 ++ r.2.2 ++ [.emit TRANSACTION_CHANGED]⟩

/-- `TransactionService.deleteTransaction`. -/
def deleteTransaction (currentYear : Nat) (s : Store) (st : TxState)
    (id : String) : Out Unit TxState :=
  match st.transactions.findIdx? (fun p => p.id == some (some id)) with
  | none => ⟨.error "Transaction not found", s, st, []⟩
  | some i =>
    let tx := st.transactions.getD i TxP.empty
    let w := deleteTransactionFromContent s id (tx.date.getD none)
    let r := loadTransactions w.1 currentYear
    ⟨.ok (), r.2.1, { st with transactions := r.1 },
      w.2 ++ r.2.2 ++ [.emit TRANSACTION_CHANGED]⟩

/-! #### Transaction queries (`TransactionService.getTransactions`) -/

inductive TxField
  | id
  | date
  | amount
  | type_
  | category
  | account
  | description
  | currency
deriving DecidableEq, Repr

inductive Dir
  | asc
  | desc
deriving DecidableEq, Repr

/-- One entry of `query.sort` (`priority` is carried but never read by the
source's comparator, which walks the list in order). -/
structure SortDesc where
  field : TxField
  direction : Dir
  priority : Int
deriving DecidableEq, Repr

structure TxQuery where
  startDate : Option SDate
  endDate : Option SDate
  categories : Option (List String)
  accounts : Option (List String)
  types : Option (List String)
  sort : Option (List SortDesc)
  page : Option Nat
  pageSize : Option Nat

/-- `String(value ?? '')` for a possibly-missing string field: both a missing
key and an assigned `undefined` are nullish and give `''`. -/
def jsStrField : Option (Option String) → String
  | some (some s) => s
  | _ => ""

/-- `String(a[sort.field] ?? '')`.  `dateStr` models `String(dateObject)`
(an environment- and timezone-dependent rendering, abstracted here); a
date key that was never assigned is nullish and gives `''`, an assigned
`NaN` amount is not nullish and stringifies to `"NaN"`. -/
def fieldString (dateStr : JsDate → String) (t : TxP) : TxField → String
  | .id => jsStrField t.id
  | .date => match t.date with
    | none => ""
    | some jd => dateStr jd
  | .amount => match t.amount with
    | none => ""
    | some none => "NaN"
    | some (some i) => intToString i
  | .type_ => jsStrField t.type_
  | .category => jsStrField t.category
  | .account => jsStrField t.account
  | .description => jsStrField t.description
  | .currency => jsStrField t.currency

/-- The comparator closure passed to `Array.prototype.sort`: walk the sort
descriptors in list order; at the first key whose rendered strings differ
return `±1` per direction (JS string `<`/`>` is lexicographic); `0` when
every key ties. -/
def jsSortCmp (dateStr : JsDate → String) (sorts : List SortDesc)
    (a b : TxP) : Int :=
  match sorts with
  | [] => 0
  | sd :: rest =>
    let av := fieldString dateStr a sd.field
    let bv := fieldString dateStr b sd.field
    if av = bv then jsSortCmp dateStr rest a b
    else match sd.direction with
      | .asc => if bv.data < av.data then 1 else -1
      | .desc => if av.data < bv.data then 1 else -1

/-- `new Date(t.date) >= query.startDate` (false when the record's date is
missing or invalid — `NaN` comparisons are false). -/
def jsDateGeB (a : JsDate) (b : SDate) : Bool :=
  match a with
  | some d => sdateLeB b d
  | none => false

def jsDateLeBnd (a : JsDate) (b : SDate) : Bool :=
  match a with
  | some d => sdateLeB d b
  | none => false

/-- The filter pipeline of `getTransactions` (everything after the implicit
first-use load), over the cached records. -/
def runTxQuery (dateStr : JsDate → String) (base : List TxP) (q : TxQuery) :
    List TxP :=
  let f1 := match q.startDate with
    | none => base
    | some sd => base.filter (fun t => jsDateGeB (t.date.getD none) sd)
  let f2 := match q.endDate with
    | none => f1
    | some ed => f1.filter (fun t => jsDateLeBnd (t.date.getD none) ed)
  let f3 := match q.categories with
    | none => f2
    | some cats => f2.filter (fun t => match t.category with
        | some (some c) => cats.contains c
        | _ => false)
  let f4 := match q.accounts with
    | none => f3
    | some accs => f3.filter (fun t => match t.account with
        | some (some a) => accs.contains a
        | _ => false)
  let f5 := match q.types with
    | none => f4
    | some tys => f4.filter (fun t => match t.type_ with
        | some (some ty) => tys.contains ty
        | _ => false)
  let f6 := match q.sort with
    | none => f5
    | some sorts => f5.mergeSort (fun a b => jsSortCmp dateStr sorts a b ≤ 0)
  match q.page, q.pageSize with
  | some p, some ps =>
    if p ≠ 0 ∧ ps ≠ 0 then (f6.drop ((p - 1) * ps)).take ps else f6
  | _, _ => f6

/-- `TransactionService.getTransactions`.  ECMAScript `Array.prototype.sort`
is stable, and with the consistent comparator above the sorted stable
permutation is unique, so `List.mergeSort` models it exactly. -/
def getTransactions (currentYear : Nat) (s : Store) (st : TxState)
    (q : Option TxQuery) (dateStr : JsDate → String) :
    Out (List TxP) TxState :=
  let ini := initTxService currentYear s st
  let base := ini.state.transactions
  match q with
  | none => ⟨.ok base, ini.store, ini.state, ini.acts⟩
  | some q => ⟨.ok (runTxQuery dateStr base q), ini.store, ini.state, ini.acts⟩

/-! #### BudgetService -/

structure BState where
  budgets : List BudgetP
  initialized : Bool
deriving Repr

def getInitialBudgetContent (year : Nat) : String :=
  "# " ++ natToString year ++ " Budgets\n\n"

def getOrCreateBudgetFile (s : Store) (year : Nat) : String × Store × List Act :=
  match s.budgetDocs year with
  | some c => (c, s, [])
  | none =>
    let init := getInitialBudgetContent year
    (init, s.putBudget year init, [.create RKind.budget year init])

/-- `BudgetService.initialize`: ensure the current year's file exists, then
(first call only) load it into the cache. -/
def initBudgetService (currentYear : Nat) (s : Store) (st : BState) :
    Out Unit BState :=
  let e := match s.budgetDocs currentYear with
    | some _ => (s, ([] : List Act))
    | none =>
      let init := getInitialBudgetContent currentYear
      (s.putBudget currentYear init, [.create RKind.budget currentYear init])
  if st.initialized then ⟨.ok (), e.1, st, e.2⟩
  else
    let g := getOrCreateBudgetFile e.1 currentYear
    ⟨.ok (), g.2.1,
      { budgets := parseBudgetsFromContent g.1, initialized := true },
      e.2 ++ g.2.2⟩

structure BudgetInput where
  amount : Int
  category : String
  period : String
  description : Option String
  status : Option String
  currency : String
deriving DecidableEq, Repr

def mkBudget (i : BudgetInput) (newId : String) : Budget :=
  { id := newId, amount := i.amount, category := i.category,
    period := i.period, description := i.description, status := i.status,
    currency := i.currency }

def isBudgetHeaderFor (id : String) (l : List Char) : Bool :=
  startsWithL "## Budget ".data l && containsL id.data l

def isBudgetHeader (l : List Char) : Bool :=
  startsWithL "## Budget ".data l

/-- `BudgetService.addBudget`: push the object into the cache, append the
block to the CURRENT year's file.  There is no reload and no event emission
in the source. -/
def addBudget (currentYear : Nat) (s : Store) (st : BState)
    (input : BudgetInput) (newId : String) : Out Budget BState :=
  let b := mkBudget input newId
  let st1 := { st with budgets := st.budgets ++ [b.toParsed] }
  let g := getOrCreateBudgetFile s currentYear
  let newContent := g.1 ++ formatBudget b
  ⟨.ok b, (g.2.1).putBudget currentYear newContent, st1,
    g.2.2 ++ [.modify RKind.budget currentYear newContent]⟩

def updateBudgetInContent (s : Store) (currentYear : Nat) (b : Budget) :
    Store × List Act :=
  let g := getOrCreateBudgetFile s currentYear
  let ls := linesOf g.1
  match ls.findIdx? (isBudgetHeaderFor b.id) with
  | none => (g.2.1, g.2.2)
  | some i =>
    let endIndex := match (ls.drop (i + 1)).findIdx? isBudgetHeader with
      | none => ls.length
      | some k => i + 1 + k
    let newContent := joinNl ((ls.take i).map strOfChars ++ [formatBudget b] ++
      (ls.drop endIndex).map strOfChars)
    ((g.2.1).putBudget currentYear newContent,
      g.2.2 ++ [.modify RKind.budget currentYear newContent])

def deleteBudgetFromContent (s : Store) (currentYear : Nat) (id : String) :
    Store × List Act :=
  let g := getOrCreateBudgetFile s currentYear
  let ls := linesOf g.1
  match ls.findIdx? (isBudgetHeaderFor id) with
  | none => (g.2.1, g.2.2)
  | some i =>
    let endIndex := match (ls.drop (i + 1)).findIdx? isBudgetHeader with
      | none => ls.length
      | some k => i + 1 + k
    let newContent := joinNl ((ls.take i).map strOfChars ++
      (ls.drop endIndex).map strOfChars)
    ((g.2.1).putBudget currentYear newContent,
      g.2.2 ++ [.modify RKind.budget currentYear newContent])

/-- `BudgetService.updateBudget` (no reload, no emission). -/
def updateBudget (currentYear : Nat) (s : Store) (st : BState) (b : Budget) :
    Out Budget BState :=
  match st.budgets.findIdx? (fun p => p.id == some (some b.id)) with
  | none => ⟨.error "Budget not found", s, st, []⟩
  | some i =>
    let st1 := { st with budgets := st.budgets.set i b.toParsed }
    let w := updateBudgetInContent s currentYear b
    ⟨.ok b, w.1, st1, w.2⟩

/-- `BudgetService.deleteBudget` (no reload, no emission). -/
def deleteBudget (currentYear : Nat) (s : Store) (st : BState) (id : String) :
    Out Unit BState :=
  match st.budgets.findIdx? (fun p => p.id == some (some id)) with
  | none => ⟨.error "Budget not found", s, st, []⟩
  | some i =>
    let st1 := { st with budgets := st.budgets.eraseIdx i }
    let w := deleteBudgetFromContent s currentYear id
    ⟨.ok (), w.1, st1, w.2⟩

/-- The record `parseBudgetLine` builds (a `Budget` whose id is a fresh
UUID and whose amount may be `NaN`). -/
structure BudgetLine where
  id : String
  amount : Option Int
  category : String
  period : String
  currency : String
  description : Option String
deriving DecidableEq, Repr

/-- Reassemble what a lazy trailing regex group captures: the remaining
parts rejoined with the `' - '` separator. -/
def joinDash : List (List Char) → List Char
  | [] => []
  | [x] => x
  | x :: y :: r => x ++ ' ' :: '-' :: ' ' :: joinDash (y :: r)

/-- `BudgetService.parseBudgetLine`: match
`/^- (.*?) - (.*?) - (.*?) - (.*?) - (.*?)$/` — the line must start with
`- ` and contain at least four further `' - '` separators; lazy groups cut
at the first occurrences, the last group takes the remainder.  Each
successful match mints a fresh id. -/
def parseBudgetLine (freshId : String) (l : List Char) : Option BudgetLine :=
  if startsWithL "- ".data l then
    match split3 ' ' '-' ' ' (l.drop 2) with
    | g1 :: g2 :: g3 :: g4 :: g5 :: rest =>
      some { id := freshId,
             amount := jsParseFloatInt (some ⟨g1⟩),
             category := ⟨trimL g2⟩,
             period := ⟨trimL g3⟩,
             currency := ⟨trimL g4⟩,
             description :=
               (let d := trimL (joinDash (g5 :: rest));
                if d.isEmpty then none else some ⟨d⟩) }
    | _ => none
  else none

/-- The `- `-line scan of `BudgetService.getBudgets`; `idGen k` supplies the
UUID minted for the `k`-th scanned line. -/
def scanBudgetLines (idGen : Nat → String) (ls : List (List Char)) (k : Nat) :
    List BudgetLine :=
  match ls with
  | [] => []
  | l :: rest =>
    if startsWithL "- ".data l then
      match parseBudgetLine (idGen k) l with
      | some b => b :: scanBudgetLines idGen rest (k + 1)
      | none => scanBudgetLines idGen rest (k + 1)
    else scanBudgetLines idGen rest (k + 1)

/-- `BudgetService.getBudgets`: implicit first-use init, then re-read the
requested year's file and parse it LINE-WISE with `parseBudgetLine` (not
with the block parser the encoder pairs with). -/
def getBudgets (currentYear : Nat) (s : Store) (st : BState)
    (queryYear : Option Nat) (idGen : Nat → String) :
    Out (List BudgetLine) BState :=
  let ini := initBudgetService currentYear s st
  let year := jsYearOr queryYear currentYear
  let g := getOrCreateBudgetFile ini.store year
  ⟨.ok (scanBudgetLines idGen (linesOf g.1) 0), g.2.1, ini.state,
    ini.acts ++ g.2.2⟩

/-! #### RecurringTransactionService -/

structure RState where
  recurringTransactions : List RecP
deriving Repr

def getInitialRecContent (year : Nat) : String :=
  "# " ++ natToString year ++ " Recurring Transactions\n\n"

def getOrCreateRecFile (s : Store) (year : Nat) : String × Store × List Act :=
  match s.recDocs year with
  | some c => (c, s, [])
  | none =>
    let init := getInitialRecContent year
    (init, s.putRec year init, [.create RKind.recur year init])

structure RecInput where
  amount : Int
  type_ : String
  category : String
  account : String
  description : Option String
  frequency : String
  startDate : SDate
  endDate : Option SDate
  currency : String
deriving DecidableEq, Repr

def mkRecurring (i : RecInput) (newId : String) : RecurringTransaction :=
  { id := newId, amount := i.amount, type_ := i.type_, category := i.category,
    account := i.account, description := i.description,
    frequency := i.frequency, startDate := i.startDate, endDate := i.endDate,
    currency := i.currency }

def isRecHeaderFor (id : String) (l : List Char) : Bool :=
  startsWithL "## Recurring Transaction ".data l && containsL id.data l

def isRecHeader (l : List Char) : Bool :=
  startsWithL "## Recurring Transaction ".data l

/-- `RecurringTransactionService.addRecurringTransaction`: push into the
cache, append to the start-date year's file, emit (no reload). -/
def addRecurringTransaction (s : Store) (st : RState) (input : RecInput)
    (newId : String) : Out RecurringTransaction RState :=
  let r := mkRecurring input newId
  let st1 : RState :=
    { recurringTransactions := st.recurringTransactions ++ [r.toParsed] }
  let year := r.startDate.year
  let g := getOrCreateRecFile s year
  let newContent := g.1 ++ formatRecurringTransaction r
  ⟨.ok r, (g.2.1).putRec year newContent, st1,
    g.2.2 ++ [.modify RKind.recur year newContent,
      .emit RECURRING_TRANSACTION_CHANGED]⟩

def updateRecurringInContent (s : Store) (r : RecurringTransaction) :
    Store × List Act :=
  let year := r.startDate.year
  let g := getOrCreateRecFile s year
  let ls := linesOf g.1
  match ls.findIdx? (isRecHeaderFor r.id) with
  | none => (g.2.1, g.2.2)
  | some i =>
    let endIndex := match (ls.drop (i + 1)).findIdx? isRecHeader with
      | none => ls.length
      | some k => i + 1 + k
    let newContent := joinNl ((ls.take i).map strOfChars ++
      [formatRecurringTransaction r] ++ (ls.drop endIndex).map strOfChars)
    ((g.2.1).putRec year newContent,
      g.2.2 ++ [.modify RKind.recur year newContent])

def deleteRecurringFromContent (s : Store) (id : String) (startDate : JsDate) :
    Store × List Act :=
  let year := jsYearOf startDate
  let g := getOrCreateRecFile s year
  let ls := linesOf g.1
  match ls.findIdx? (isRecHeaderFor id) with
  | none => (g.2.1, g.2.2)
  | some i =>
    let endIndex := match (ls.drop (i + 1)).findIdx? isRecHeader with
      | none => ls.length
      | some k => i + 1 + k
    let newContent := joinNl ((ls.take i).map strOfChars ++
      (ls.drop endIndex).map strOfChars)
    ((g.2.1).putRec year newContent,
      g.2.2 ++ [.modify RKind.recur year newContent])

/-- `RecurringTransactionService.updateRecurringTransaction`. -/
def updateRecurringTransaction (s : Store) (st : RState)
    (r : RecurringTransaction) : Out RecurringTransaction RState :=
  match st.recurringTransactions.findIdx? (fun p => p.id == some (some r.id)) with
  | none => ⟨.error "Recurring transaction not found", s, st, []⟩
  | some i =>
    let st1 : RState :=
      { recurringTransactions := st.recurringTransactions.set i r.toParsed }
    let w := updateRecurringInContent s r
    ⟨.ok r, w.1, st1, w.2 ++ [.emit RECURRING_TRANSACTION_CHANGED]⟩

/-- `RecurringTransactionService.deleteRecurringTransaction`. -/
def deleteRecurringTransaction (s : Store) (st : RState) (id : String) :
    Out Unit RState :=
  match st.recurringTransactions.findIdx? (fun p => p.id == some (some id)) with
  | none => ⟨.error "Recurring transaction not found", s, st, []⟩
  | some i =>
    let p := st.recurringTransactions.getD i RecP.empty
    let st1 : RState :=
      { recurringTransactions := st.recurringTransactions.eraseIdx i }
    let w := deleteRecurringFromContent s id (p.startDate.getD none)
    ⟨.ok (), w.1, st1, w.2 ++ [.emit RECURRING_TRANSACTION_CHANGED]⟩

/-- The record `parseRecurringTransactionLine` builds. -/
structure RecLine where
  id : String
  amount : Option Int
  type_ : String
  category : String
  account : String
  frequency : String
  startDate : JsDate
  endDate : Option JsDate
  description : Option String
  currency : String
deriving DecidableEq, Repr

/-- `RecurringTransactionService.parseRecurringTransactionLine`: match
`/^- (.*?) - ... - (.*?)$/` with eight lazy groups (seven `' - '`
separators); mints a fresh id and hard-codes currency `CNY`. -/
def parseRecurringTransactionLine (freshId : String) (l : List Char) :
    Option RecLine :=
  if startsWithL "- ".data l then
    match split3 ' ' '-' ' ' (l.drop 2) with
    | g1 :: g2 :: g3 :: g4 :: g5 :: g6 :: g7 :: g8 :: rest =>
      some { id := freshId,
             amount := jsParseFloatInt (some ⟨g1⟩),
             type_ := ⟨trimL g2⟩,
             category := ⟨trimL g3⟩,
             account := ⟨trimL g4⟩,
             frequency := ⟨trimL g5⟩,
             startDate := parseYmdL (trimL g6),
             endDate :=
               (if (trimL g7).isEmpty then none
                else some (parseYmdL (trimL g7))),
             description :=
               (let d := trimL (joinDash (g8 :: rest));
                if d.isEmpty then none else some ⟨d⟩),
             currency := "CNY" }
    | _ => none
  else none

def scanRecLines (idGen : Nat → String) (ls : List (List Char)) (k : Nat) :
    List RecLine :=
  match ls with
  | [] => []
  | l :: rest =>
    if startsWithL "- ".data l then
      match parseRecurringTransactionLine (idGen k) l with
      | some r => r :: scanRecLines idGen rest (k + 1)
      | none => scanRecLines idGen rest (k + 1)
    else scanRecLines idGen rest (k + 1)

/-- `RecurringTransactionService.getRecurringTransactions`: re-read the
requested year's file and parse it LINE-WISE with
`parseRecurringTransactionLine`. -/
def getRecurringTransactions (currentYear : Nat) (s : Store) (st : RState)
    (queryYear : Option Nat) (idGen : Nat → String) :
    Out (List RecLine) RState :=
  let year := jsYearOr queryYear currentYear
  let g := getOrCreateRecFile s year
  ⟨.ok (scanRecLines idGen (linesOf g.1) 0), g.2.1, st, g.2.2⟩

/-! #### SummaryService -/

/-- One currency partition's summary (`CurrencySummary`); the currency key
is the raw JS `Map` key, i.e. possibly `undefined`. -/
structure CurrencySummary where
  currency : Option String
  totalIncome : Option Int
  totalExpense : Option Int
  netAmount : Option Int
  transactions : List TxP
deriving DecidableEq, Repr

/-- The `Map` key `transaction.currency` (an unassigned or
`undefined`-valued field keys the `undefined` bucket). -/
def currencyKey (t : TxP) : Option String :=
  match t.currency with
  | some (some c) => some c
  | _ => none

/-- Insert a transaction into the insertion-ordered currency groups
(`currencyGroups.get(currency)!.push(transaction)`). -/
def addToGroup (acc : List (Option String × List TxP)) (t : TxP) :
    List (Option String × List TxP) :=
  match acc with
  | [] => [(currencyKey t, [t])]
  | (c, g) :: rest =>
    if currencyKey t = c then (c, g ++ [t]) :: rest
    else (c, g) :: addToGroup rest t

/-- `generateSummary`'s grouping of the fetched transactions by currency
(JS `Map` iteration follows insertion order). -/
def currencyGroups (txs : List TxP) : List (Option String × List TxP) :=
  txs.foldl addToGroup []

/-- JS `+` where either side may be `NaN` (`undefined + x` is also `NaN`). -/
def jsAdd (a b : Option Int) : Option Int :=
  match a, b with
  | some x, some y => some (x + y)
  | _, _ => none

def jsSub (a b : Option Int) : Option Int :=
  match a, b with
  | some x, some y => some (x - y)
  | _, _ => none

/-- The value of `t.amount` as used in `sum + t.amount` (a missing key reads
`undefined`, poisoning the sum exactly like `NaN`). -/
def amountVal (t : TxP) : Option Int :=
  match t.amount with
  | some (some v) => some v
  | _ => none

/-- `t.type === 'income'` (strict equality against the string literal). -/
def isIncomeTx (t : TxP) : Bool :=
  t.type_ == some (some "income")

def isExpenseTx (t : TxP) : Bool :=
  t.type_ == some (some "expense")

/-- `transactions.filter(...).reduce((sum, t) => sum + t.amount, 0)`. -/
def sumAmounts (txs : List TxP) : Option Int :=
  txs.foldl (fun sum t => jsAdd sum (amountVal t)) (some 0)

/-- `SummaryService.calculateCurrencySummary`. -/
def calculateCurrencySummary (txs : List TxP) (currency : Option String) :
    CurrencySummary :=
  let totalIncome := sumAmounts (txs.filter isIncomeTx)
  let totalExpense := sumAmounts (txs.filter isExpenseTx)
  { currency := currency, totalIncome := totalIncome,
    totalExpense := totalExpense,
    netAmount := jsSub totalIncome totalExpense, transactions := txs }

/-- The date-range fetch of `generateSummary`
(`getTransactions({startDate, endDate})` over the cached records). -/
def periodTxs (cache : List TxP) (start stop : SDate) : List TxP :=
  (cache.filter (fun t => jsDateGeB (t.date.getD none) start)).filter
    (fun t => jsDateLeBnd (t.date.getD none) stop)

/-- `SummaryService.generateSummary`, after the fetch: group by currency and
summarize each group. -/
def generateSummaryCore (txs : List TxP) : List CurrencySummary :=
  (currencyGroups txs).map (fun cg => calculateCurrencySummary cg.2 cg.1)

/-! ### Recurring expansion (spec §4.5)

Modelled from the spec: the repository contains no occurrence-expansion
implementation (its `RecurringTransaction` type and services only store the
rules), so the monthly-expansion primitive of spec §4.5 is defined here from
the spec's words: one occurrence per month of the period on the rule's
start-date day-of-month, clamped to the last day of months lacking that day,
and only occurrences within both the period and the rule's active range
count; a rule whose range misses the period yields nothing. -/

def lastDayOfMonth (y m : Nat) : Nat := daysInMonth y m

/-- The months `(year, month)` covered by `[start, stop]`, in order. -/
def monthsInPeriod (start stop : SDate) : List (Nat × Nat) :=
  let a := start.year * 12 + (start.month - 1)
  let b := stop.year * 12 + (stop.month - 1)
  (List.range (b + 1 - a)).map (fun i => ((a + i) / 12, (a + i) % 12 + 1))

/-- Modelled from the spec: the candidate occurrence of a month is the
rule's day-of-month, clamped to the last day of months lacking that day. -/
def clampedDay (ruleStart : SDate) (ym : Nat × Nat) : SDate :=
  ⟨ym.1, ym.2, min ruleStart.day (lastDayOfMonth ym.1 ym.2)⟩

/-- Modelled from the spec: an occurrence counts when it lies within the
period and within the rule's active range (no end date means open-ended). -/
def keepOcc (ruleStart : SDate) (ruleEnd : Option SDate)
    (start stop : SDate) (d : SDate) : Bool :=
  sdateLeB ruleStart d && sdateLeB start d && sdateLeB d stop &&
    (match ruleEnd with
     | some e => sdateLeB d e
     | none => true)

/-- Modelled from the spec: `monthly` expansion of a rule over a period. -/
def expandMonthly (ruleStart : SDate) (ruleEnd : Option SDate)
    (start stop : SDate) : List SDate :=
  (monthsInPeriod start stop).filterMap (fun ym =>
    if keepOcc ruleStart ruleEnd start stop (clampedDay ruleStart ym) = true
    then some (clampedDay ruleStart ym)
    else none)

/-! ### Lemmas about the string primitives -/

theorem consHead_cons (c : Char) (t : List Char) (ts : List (List Char)) :
    consHead c (t :: ts) = (c :: t) :: ts := rfl

theorem split1_sep_append (a : Char) (l r : List Char)
    (h : l.all (fun c => !(c = a))) :
    split1 a (l ++ a :: r) = l :: split1 a r := by
  induction l with
  | nil => simp [split1]
  | cons c cs ih =>
    simp only [List.all_cons, Bool.and_eq_true, Bool.not_eq_eq_eq_not,
      Bool.not_true, decide_eq_false_iff_not] at h
    have e1 : split1 a ((c :: cs) ++ a :: r) =
        if c = a then [] :: split1 a (cs ++ a :: r)
        else consHead c (split1 a (cs ++ a :: r)) := rfl
    rw [e1, if_neg h.1, ih h.2, consHead_cons]

theorem split1_no_sep (a : Char) (l : List Char)
    (h : l.all (fun c => !(c = a))) :
    split1 a l = [l] := by
  induction l with
  | nil => rfl
  | cons c cs ih =>
    simp only [List.all_cons, Bool.and_eq_true, Bool.not_eq_eq_eq_not,
      Bool.not_true, decide_eq_false_iff_not] at h
    have e1 : split1 a (c :: cs) =
        if c = a then [] :: split1 a cs else consHead c (split1 a cs) := rfl
    rw [e1, if_neg h.1, ih h.2, consHead_cons]

theorem containsL_two_head {x y c d : Char} {ds : List Char}
    (h : containsL [x, y] (c :: d :: ds) = false) :
    ¬(c = x ∧ d = y) ∧ containsL [x, y] (d :: ds) = false := by
  have h' : (startsWithL [x, y] (c :: d :: ds) ||
      containsL [x, y] (d :: ds)) = false := h
  rw [Bool.or_eq_false_iff] at h'
  refine ⟨?_, h'.2⟩
  rintro ⟨rfl, rfl⟩
  have hs := h'.1
  simp [startsWithL] at hs

theorem split2_sep_append (x y : Char) (l r : List Char)
    (h1 : containsL [x, y] l = false) (h2 : l.getLast? ≠ some x) :
    split2 x y (l ++ x :: y :: r) = l :: split2 x y r := by
  induction l with
  | nil => simp [split2]
  | cons c cs ih =>
    cases cs with
    | nil =>
      have hcx : ¬(c = x ∧ x = y) := by
        intro hc
        exact h2 (by simp [hc.1])
      have e1 : split2 x y ([c] ++ x :: y :: r) =
          if c = x ∧ x = y then [] :: split2 x y (y :: r)
          else consHead c (split2 x y (x :: y :: r)) := rfl
      have e2 : split2 x y (x :: y :: r) =
          if x = x ∧ y = y then [] :: split2 x y r
          else consHead x (split2 x y (y :: r)) := rfl
      rw [e1, if_neg hcx, e2, if_pos ⟨rfl, rfl⟩, consHead_cons]
    | cons d ds =>
      have h3 := containsL_two_head h1
      have h4 : (d :: ds).getLast? ≠ some x := by
        simpa [List.getLast?] using h2
      have e1 : split2 x y ((c :: d :: ds) ++ x :: y :: r) =
          if c = x ∧ d = y then [] :: split2 x y (ds ++ x :: y :: r)
          else consHead c (split2 x y ((d :: ds) ++ x :: y :: r)) := rfl
      rw [e1, if_neg h3.1, ih h3.2 h4, consHead_cons]

theorem split2_no_sep (x y : Char) (l : List Char)
    (h : containsL [x, y] l = false) :
    split2 x y l = [l] := by
  induction l with
  | nil => rfl
  | cons c cs ih =>
    cases cs with
    | nil => rfl
    | cons d ds =>
      have h3 := containsL_two_head h
      have e1 : split2 x y (c :: d :: ds) =
          if c = x ∧ d = y then [] :: split2 x y ds
          else consHead c (split2 x y (d :: ds)) := rfl
      rw [e1, if_neg h3.1, ih h3.2, consHead_cons]

/-! ### Decimal printing round-trips with parsing -/

theorem printNatAux_acc (fuel : Nat) :
    ∀ (n : Nat) (acc : List Char),
      printNatAux fuel n acc = printNatAux fuel n [] ++ acc := by
  induction fuel with
  | zero => intro n acc; rfl
  | succ fuel ih =>
    intro n acc
    by_cases h : n < 10
    · simp [printNatAux, h]
    · simp only [printNatAux, if_neg h]
      rw [ih (n / 10) (digitChar (n % 10) :: acc),
        ih (n / 10) [digitChar (n % 10)]]
      simp

theorem printNatAux_mono (n : Nat) :
    ∀ (f1 f2 : Nat), n < f1 → n < f2 → ∀ acc,
      printNatAux f1 n acc = printNatAux f2 n acc := by
  induction n using Nat.strong_induction_on with
  | _ n ih =>
    intro f1 f2 h1 h2 acc
    obtain ⟨g1, rfl⟩ : ∃ g, f1 = g + 1 :=
      ⟨f1 - 1, by omega⟩
    obtain ⟨g2, rfl⟩ : ∃ g, f2 = g + 1 :=
      ⟨f2 - 1, by omega⟩
    by_cases h : n < 10
    · simp [printNatAux, h]
    · simp only [printNatAux, if_neg h]
      have hdiv : n / 10 < n := Nat.div_lt_self (by omega) (by omega)
      exact ih (n / 10) hdiv g1 g2 (by omega) (by omega) _

theorem printNat_lt10 {n : Nat} (h : n < 10) :
    printNat n = [digitChar n] := by
  simp [printNat, printNatAux, h]

theorem printNat_ge10 {n : Nat} (h : 10 ≤ n) :
    printNat n = printNat (n / 10) ++ [digitChar (n % 10)] := by
  have hdiv : n / 10 < n := Nat.div_lt_self (by omega) (by omega)
  unfold printNat
  rw [show printNatAux (n + 1) n [] =
      printNatAux n (n / 10) [digitChar (n % 10)] by
    simp [printNatAux, Nat.not_lt.mpr h]]
  rw [printNatAux_mono (n / 10) n (n / 10 + 1) (by omega) (by omega),
    printNatAux_acc]

theorem digitChar_isDigit {n : Nat} (h : n < 10) :
    (digitChar n).isDigit = true := by
  interval_cases n <;> decide

theorem digitChar_toNat {n : Nat} (h : n < 10) :
    (digitChar n).toNat = 48 + n := by
  interval_cases n <;> decide

theorem printNat_all_digits (n : Nat) :
    (printNat n).all Char.isDigit = true := by
  induction n using Nat.strong_induction_on with
  | _ n ih =>
    by_cases h : n < 10
    · rw [printNat_lt10 h]
      simp [digitChar_isDigit h]
    · rw [printNat_ge10 (by omega), List.all_append]
      have hdiv : n / 10 < n := Nat.div_lt_self (by omega) (by omega)
      rw [ih (n / 10) hdiv]
      simp [digitChar_isDigit (Nat.mod_lt n (by omega))]

theorem printNat_ne_nil (n : Nat) : printNat n ≠ [] := by
  by_cases h : n < 10
  · rw [printNat_lt10 h]; simp
  · rw [printNat_ge10 (by omega)]; simp

theorem leadNatAux_append (l1 l2 : List Char)
    (h : l1.all Char.isDigit = true) :
    ∀ acc, leadNatAux (l1 ++ l2) acc = leadNatAux l2 (leadNatAux l1 acc) := by
  induction l1 with
  | nil => intro acc; rfl
  | cons c cs ih =>
    intro acc
    simp only [List.all_cons, Bool.and_eq_true] at h
    simp only [List.cons_append, leadNatAux, if_pos h.1]
    exact ih h.2 _

theorem leadNatAux_printNat (n : Nat) :
    ∀ acc, leadNatAux (printNat n) acc = acc * 10 ^ (printNat n).length + n := by
  induction n using Nat.strong_induction_on with
  | _ n ih =>
    intro acc
    by_cases h : n < 10
    · rw [printNat_lt10 h]
      simp [leadNatAux, digitChar_isDigit h, digitChar_toNat h]
    · have h10 : 10 ≤ n := by omega
      have hdiv : n / 10 < n := Nat.div_lt_self (by omega) (by omega)
      rw [printNat_ge10 h10,
        leadNatAux_append _ _ (printNat_all_digits (n / 10)) acc,
        ih (n / 10) hdiv acc]
      have hm : n % 10 < 10 := Nat.mod_lt n (by omega)
      simp only [leadNatAux, if_pos (digitChar_isDigit hm),
        digitChar_toNat hm, List.length_append, List.length_cons,
        List.length_nil, pow_succ, pow_zero, Nat.zero_add, Nat.add_sub_cancel_left]
      have e2 : n / 10 * 10 + n % 10 = n := by omega
      rw [Nat.add_mul, Nat.add_assoc, e2, ← Nat.mul_assoc]

theorem jsLeadNat_printNat (n : Nat) : jsLeadNat (printNat n) = some n := by
  cases hp : printNat n with
  | nil => exact absurd hp (printNat_ne_nil n)
  | cons c cs =>
    have hd : c.isDigit = true := by
      have := printNat_all_digits n
      rw [hp] at this
      simp only [List.all_cons, Bool.and_eq_true] at this
      exact this.1
    have := leadNatAux_printNat n 0
    rw [hp] at this
    simp only [jsLeadNat, if_pos hd]
    rw [this]
    simp

theorem isDigit_char_facts (c : Char) (h : c.isDigit = true) :
    c ≠ '\n' ∧ c ≠ ':' ∧ c ≠ ' ' ∧ c ≠ '-' ∧ c ≠ '#' ∧
      c.isWhitespace = false := by
  refine ⟨?_, ?_, ?_, ?_, ?_, ?_⟩ <;>
    first
    | (intro he; subst he; simp [Char.isDigit] at h)
    | (by_cases h1 : c = ' '
       · subst h1; simp [Char.isDigit] at h
       by_cases h2 : c = '\t'
       · subst h2; simp [Char.isDigit] at h
       by_cases h3 : c = '\r'
       · subst h3; simp [Char.isDigit] at h
       by_cases h4 : c = '\n'
       · subst h4; simp [Char.isDigit] at h
       simp [Char.isWhitespace, h1, h2, h3, h4])

theorem dropWhile_of_head_false {p : Char → Bool} :
    ∀ {l : List Char}, l.all (fun c => !(p c)) → l.dropWhile p = l
  | [], _ => rfl
  | c :: cs, h => by
    simp only [List.all_cons, Bool.and_eq_true, Bool.not_eq_eq_eq_not,
      Bool.not_true] at h
    simp [List.dropWhile, h.1]

theorem trimL_of_no_ws (l : List Char)
    (h : l.all (fun c => !(c.isWhitespace))) : trimL l = l := by
  unfold trimL
  rw [dropWhile_of_head_false h, dropWhile_of_head_false (by simpa using h),
    List.reverse_reverse]

theorem all_of_all_digits {l : List Char} (h : l.all Char.isDigit = true)
    (p : Char → Bool) (hp : ∀ c, c.isDigit = true → p c = true) :
    l.all p = true := by
  rw [List.all_eq_true] at h ⊢
  exact fun c hc => hp c (h c hc)

/-- An occurrence of `sub` needs its first char somewhere in `l`. -/
theorem containsL_of_no_head (x : Char) (p l : List Char)
    (h : l.all (fun c => !(c = x)) = true) :
    containsL (x :: p) l = false := by
  induction l with
  | nil => rfl
  | cons c cs ih =>
    simp only [List.all_cons, Bool.and_eq_true, Bool.not_eq_eq_eq_not,
      Bool.not_true, decide_eq_false_iff_not] at h
    have hxc : (decide (x = c)) = false :=
      decide_eq_false (fun he => h.1 he.symm)
    have hs : startsWithL (x :: p) (c :: cs) = false := by
      rw [show startsWithL (x :: p) (c :: cs) =
        (decide (x = c) && startsWithL p cs) from rfl, hxc, Bool.false_and]
    rw [show containsL (x :: p) (c :: cs) =
      (startsWithL (x :: p) (c :: cs) || containsL (x :: p) cs) from rfl,
      hs, ih (by simp [List.all_eq_true] at h ⊢; exact h.2), Bool.false_or]

theorem jsParseFloatInt_natToString (n : Nat) :
    jsParseFloatInt (some (natToString n)) = some (n : Int) := by
  have hdig := printNat_all_digits n
  have hws : (printNat n).dropWhile Char.isWhitespace = printNat n :=
    dropWhile_of_head_false (all_of_all_digits hdig _
      (fun c hc => by simp [(isDigit_char_facts c hc).2.2.2.2.2]))
  cases hp : printNat n with
  | nil => exact absurd hp (printNat_ne_nil n)
  | cons c cs =>
    have hd : c.isDigit = true := by
      have := printNat_all_digits n
      rw [hp] at this
      simp only [List.all_cons, Bool.and_eq_true] at this
      exact this.1
    have hnm : ¬(c = '-') := fun he => by
      subst he; simp [Char.isDigit] at hd
    have hlead := jsLeadNat_printNat n
    rw [hp] at hws hlead
    simp [jsParseFloatInt, natToString, hp, hws, hnm, hlead]

theorem jsParseFloatInt_intToString (a : Int) :
    jsParseFloatInt (some (intToString a)) = some a := by
  by_cases h : a < 0
  · have habs : intToString a = ⟨'-' :: printNat a.natAbs⟩ := by
      simp [intToString, printInt, h]
    have hws : ('-' :: printNat a.natAbs).dropWhile Char.isWhitespace =
        '-' :: printNat a.natAbs := by
      rw [List.dropWhile_cons_of_neg (by decide)]
    have ha : -((a.natAbs : Nat) : Int) = a := by omega
    rw [habs]
    simp [jsParseFloatInt, hws, jsLeadNat_printNat, ha]
    rw [abs_of_neg h, neg_neg]
  · have hnn : intToString a = natToString a.toNat := by
      simp [intToString, natToString, printInt, h]
    rw [hnn, jsParseFloatInt_natToString]
    congr 1
    omega

/-! ### Date round trip -/

theorem padZero_all_digits (k : Nat) {l : List Char}
    (h : l.all Char.isDigit = true) :
    (padZero k l).all Char.isDigit = true := by
  simp [padZero, List.all_append, h, List.all_eq_true]

theorem leadNatAux_replicate_zero (j : Nat) :
    leadNatAux (List.replicate j '0') 0 = 0 := by
  induction j with
  | zero => rfl
  | succ j ih => simpa [List.replicate, leadNatAux]

theorem allDigitsNat_padZero (k n : Nat) :
    allDigitsNat (padZero k (printNat n)) = some n := by
  have h1 : padZero k (printNat n) ≠ [] := by
    unfold padZero
    intro he
    exact printNat_ne_nil n (List.append_eq_nil.mp he).2
  have h2 : (padZero k (printNat n)).all Char.isDigit = true :=
    padZero_all_digits k (printNat_all_digits n)
  unfold allDigitsNat
  rw [if_pos ⟨h1, h2⟩]
  unfold padZero
  rw [leadNatAux_append _ _ (by simp [List.all_eq_true]) 0,
    leadNatAux_replicate_zero, leadNatAux_printNat n 0]
  simp

theorem padZero_digits_all {k : Nat} {l : List Char} (p : Char → Bool)
    (h : l.all Char.isDigit = true) (hp : ∀ c, c.isDigit = true → p c = true) :
    (padZero k l).all p = true :=
  all_of_all_digits (padZero_all_digits k h) p hp

theorem parseYmdL_formatSDate (d : SDate) (h : isValidSDate d = true) :
    parseYmdL (formatSDate d).data = some d := by
  have hnd : ∀ n : Nat, (padZero 2 (printNat n)).all (fun c => !(c = '-')) = true :=
    fun n => padZero_digits_all _ (printNat_all_digits n)
      (fun c hc => by simp [(isDigit_char_facts c hc).2.2.2.1])
  have hnd4 : (padZero 4 (printNat d.year)).all (fun c => !(c = '-')) = true :=
    padZero_digits_all _ (printNat_all_digits d.year)
      (fun c hc => by simp [(isDigit_char_facts c hc).2.2.2.1])
  have e : (formatSDate d).data =
      padZero 4 (printNat d.year) ++ '-' ::
        (padZero 2 (printNat d.month) ++ '-' :: padZero 2 (printNat d.day)) := by
    show (padZero 4 (printNat d.year) ++ ('-' :: padZero 2 (printNat d.month))) ++
      ('-' :: padZero 2 (printNat d.day)) = _
    rw [List.append_assoc]
    rfl
  unfold parseYmdL
  rw [e, split1_sep_append _ _ _ hnd4, split1_sep_append _ _ _ (hnd d.month),
    split1_no_sep _ _ (hnd d.day)]
  simp only [allDigitsNat_padZero]
  simp only [isValidSDate, Bool.and_eq_true, decide_eq_true_eq] at h
  rw [if_pos (by omega)]

/-! ### Field-line and block lemmas for the transaction codec -/

/-- Values that survive the line codec: no newline (would break the line),
no `': '` (the decoder cuts at every occurrence), stable under `trim`. -/
def cleanS (s : String) : Prop :=
  s.data.all (fun c => !(c = '\n')) = true ∧
  containsL [':', ' '] s.data = false ∧
  trimL s.data = s.data

instance (s : String) : Decidable (cleanS s) := by
  unfold cleanS
  infer_instance

theorem lineKV_label (label : String) (v : List Char)
    (hl1 : containsL [':', ' '] label.data = false)
    (hl2 : label.data.getLast? ≠ some ':')
    (hv : containsL [':', ' '] v = false) :
    lineKV (label.data ++ ':' :: ' ' :: v) =
      (trimL label.data, some (⟨trimL v⟩ : String)) := by
  unfold lineKV
  rw [split2_sep_append ':' ' ' label.data v hl1 hl2, split2_no_sep ':' ' ' v hv]
  simp

theorem applyTx_date (cur : TxP) (v : List Char)
    (hv1 : containsL [':', ' '] v = false) (hv2 : trimL v = v) :
    applyTxField cur ("Date".data ++ ':' :: ' ' :: v) =
      { cur with date := some (parseYmdL v) } := by
  unfold applyTxField
  rw [lineKV_label "Date" v (by decide) (by decide) hv1, hv2]
  simp [jsNewDate, show trimL "Date".data = "Date".data from by decide]

theorem applyTx_amount (cur : TxP) (v : List Char)
    (hv1 : containsL [':', ' '] v = false) (hv2 : trimL v = v) :
    applyTxField cur ("Amount".data ++ ':' :: ' ' :: v) =
      { cur with amount := some (jsParseFloatInt (some (⟨v⟩ : String))) } := by
  unfold applyTxField
  rw [lineKV_label "Amount" v (by decide) (by decide) hv1, hv2]
  simp [show trimL "Amount".data = "Amount".data from by decide]

theorem applyTx_type (cur : TxP) (v : List Char)
    (hv1 : containsL [':', ' '] v = false) (hv2 : trimL v = v) :
    applyTxField cur ("Type".data ++ ':' :: ' ' :: v) =
      { cur with type_ := some (some (⟨v⟩ : String)) } := by
  unfold applyTxField
  rw [lineKV_label "Type" v (by decide) (by decide) hv1, hv2]
  simp [show trimL "Type".data = "Type".data from by decide]

theorem applyTx_category (cur : TxP) (v : List Char)
    (hv1 : containsL [':', ' '] v = false) (hv2 : trimL v = v) :
    applyTxField cur ("Category".data ++ ':' :: ' ' :: v) =
      { cur with category := some (some (⟨v⟩ : String)) } := by
  unfold applyTxField
  rw [lineKV_label "Category" v (by decide) (by decide) hv1, hv2]
  simp [show trimL "Category".data = "Category".data from by decide]

theorem applyTx_account (cur : TxP) (v : List Char)
    (hv1 : containsL [':', ' '] v = false) (hv2 : trimL v = v) :
    applyTxField cur ("Account".data ++ ':' :: ' ' :: v) =
      { cur with account := some (some (⟨v⟩ : String)) } := by
  unfold applyTxField
  rw [lineKV_label "Account" v (by decide) (by decide) hv1, hv2]
  simp [show trimL "Account".data = "Account".data from by decide]

theorem applyTx_description (cur : TxP) (v : List Char)
    (hv1 : containsL [':', ' '] v = false) (hv2 : trimL v = v) :
    applyTxField cur ("Description".data ++ ':' :: ' ' :: v) =
      { cur with description := some (some (⟨v⟩ : String)) } := by
  unfold applyTxField
  rw [lineKV_label "Description" v (by decide) (by decide) hv1, hv2]
  simp [show trimL "Description".data = "Description".data from by decide]

theorem applyTx_currency (cur : TxP) (v : List Char)
    (hv1 : containsL [':', ' '] v = false) (hv2 : trimL v = v) :
    applyTxField cur ("Currency".data ++ ':' :: ' ' :: v) =
      { cur with currency := some (some (⟨v⟩ : String)) } := by
  unfold applyTxField
  rw [lineKV_label "Currency" v (by decide) (by decide) hv1, hv2]
  simp [show trimL "Currency".data = "Currency".data from by decide]

theorem applyTx_id (cur : TxP) (v : List Char)
    (hv1 : containsL [':', ' '] v = false) (hv2 : trimL v = v) :
    applyTxField cur ("ID".data ++ ':' :: ' ' :: v) =
      { cur with id := some (some (⟨v⟩ : String)) } := by
  unfold applyTxField
  rw [lineKV_label "ID" v (by decide) (by decide) hv1, hv2]
  simp [show trimL "ID".data = "ID".data from by decide]

theorem mk_data_eta (s : String) : (⟨s.data⟩ : String) = s := rfl

theorem joinNl_cons_data (s t : String) (rest : List String) :
    (joinNl (s :: t :: rest)).data = s.data ++ '\n' :: (joinNl (t :: rest)).data := by
  show (s ++ "\n" ++ joinNl (t :: rest)).data = _
  rw [String.data_append, String.data_append, List.append_assoc]
  rfl

theorem split1_peel (s : String) (rest : List String) (tail : List Char)
    (h : s.data.all (fun c => !(c = '\n')) = true) (hne : rest ≠ []) :
    split1 '\n' ((joinNl (s :: rest)).data ++ tail) =
      s.data :: split1 '\n' ((joinNl rest).data ++ tail) := by
  cases rest with
  | nil => exact absurd rfl hne
  | cons t r =>
    rw [joinNl_cons_data, List.append_assoc]
    exact split1_sep_append '\n' s.data _ h

theorem parseTxLoop_header (l : List Char) (rest : List (List Char)) (cur : TxP)
    (h : startsWithL "## ".data l = true) :
    parseTxLoop (l :: rest) cur =
      (if cur.hasKeys then [cur] else []) ++ parseTxLoop rest TxP.empty := by
  simp [parseTxLoop, h]

theorem parseTxLoop_field (l : List Char) (rest : List (List Char)) (cur : TxP)
    (h1 : startsWithL "## ".data l = false) (h2 : startsWithL "- ".data l = true) :
    parseTxLoop (l :: rest) cur = parseTxLoop rest (applyTxField cur (l.drop 2)) := by
  simp [parseTxLoop, h1, h2]

theorem parseTxLoop_blank (rest : List (List Char)) (cur : TxP) :
    parseTxLoop ([] :: rest) cur = parseTxLoop rest cur := rfl

theorem parseTxLoop_skip (l : List Char) (rest : List (List Char)) (cur : TxP)
    (h1 : startsWithL "## ".data l = false)
    (h2 : startsWithL "- ".data l = false) :
    parseTxLoop (l :: rest) cur = parseTxLoop rest cur := by
  simp [parseTxLoop, h1, h2]

theorem printInt_all (a : Int) (p : Char → Bool)
    (hp : ∀ c, c.isDigit = true → p c = true) (hd : p '-' = true) :
    (printInt a).all p = true := by
  unfold printInt
  by_cases h : a < 0
  · simp only [if_pos h, List.all_cons, hd, Bool.true_and]
    exact all_of_all_digits (printNat_all_digits _) p hp
  · simp only [if_neg h]
    exact all_of_all_digits (printNat_all_digits _) p hp

theorem formatSDate_all (d : SDate) (p : Char → Bool)
    (hp : ∀ c, c.isDigit = true → p c = true) (hd : p '-' = true) :
    (formatSDate d).data.all p = true := by
  have e : (formatSDate d).data =
      padZero 4 (printNat d.year) ++ '-' ::
        (padZero 2 (printNat d.month) ++ '-' :: padZero 2 (printNat d.day)) := by
    show (padZero 4 (printNat d.year) ++ ('-' :: padZero 2 (printNat d.month))) ++
      ('-' :: padZero 2 (printNat d.day)) = _
    rw [List.append_assoc]
    rfl
  rw [e]
  simp only [List.all_append, List.all_cons, hd, Bool.true_and,
    Bool.and_eq_true]
  exact ⟨padZero_digits_all p (printNat_all_digits _) hp,
    padZero_digits_all p (printNat_all_digits _) hp,
    padZero_digits_all p (printNat_all_digits _) hp⟩

theorem intToString_no_cs (a : Int) :
    containsL [':', ' '] (intToString a).data = false :=
  containsL_of_no_head ':' [' '] _ (printInt_all a _
    (fun c hc => by simp [(isDigit_char_facts c hc).2.1]) (by decide))

theorem intToString_trim (a : Int) : trimL (intToString a).data = (intToString a).data :=
  trimL_of_no_ws _ (printInt_all a _
    (fun c hc => by simp [(isDigit_char_facts c hc).2.2.2.2.2]) (by decide))

theorem intToString_no_nl (a : Int) :
    (intToString a).data.all (fun c => !(c = '\n')) = true :=
  printInt_all a _ (fun c hc => by simp [(isDigit_char_facts c hc).1]) (by decide)

theorem formatSDate_no_cs (d : SDate) :
    containsL [':', ' '] (formatSDate d).data = false :=
  containsL_of_no_head ':' [' '] _ (formatSDate_all d _
    (fun c hc => by simp [(isDigit_char_facts c hc).2.1]) (by decide))

theorem formatSDate_trim (d : SDate) :
    trimL (formatSDate d).data = (formatSDate d).data :=
  trimL_of_no_ws _ (formatSDate_all d _
    (fun c hc => by simp [(isDigit_char_facts c hc).2.2.2.2.2]) (by decide))

theorem formatSDate_no_nl (d : SDate) :
    (formatSDate d).data.all (fun c => !(c = '\n')) = true :=
  formatSDate_all d _ (fun c hc => by simp [(isDigit_char_facts c hc).1])
    (by decide)

theorem line_no_nl (pre s : String)
    (hp : pre.data.all (fun c => !(c = '\n')) = true)
    (hs : s.data.all (fun c => !(c = '\n')) = true) :
    (pre ++ s).data.all (fun c => !(c = '\n')) = true := by
  rw [String.data_append, List.all_append, hp, hs]
  rfl

/-- Decoding one well-formed encoded Transaction block, followed by anything:
the block's record accumulates exactly to `t.toParsed` (the loop flushes it
on the next header or at end of input). -/
theorem parseTx_block (t : Transaction) (dsc : String) (tail : List Char)
    (cur : TxP)
    (hdsc : t.description = some dsc)
    (hid : cleanS t.id) (hty : cleanS t.type_) (hcat : cleanS t.category)
    (hacc : cleanS t.account) (hcuy : cleanS t.currency) (hdc : cleanS dsc)
    (hdate : isValidSDate t.date = true) :
    parseTxLoop (split1 '\n' ((formatTransaction t).data ++ tail)) cur =
      (if cur.hasKeys then [cur] else []) ++
        parseTxLoop (split1 '\n' tail) t.toParsed := by
  have hjs : jsTemplateStr t.description = dsc := by rw [hdsc]; rfl
  unfold formatTransaction formatTransactionLines
  rw [hjs]
  rw [split1_peel _ _ _ (line_no_nl "## Transaction " t.id (by decide) hid.1)
        (by simp),
      split1_peel _ _ _ (by decide) (by simp),
      split1_peel _ _ _ (line_no_nl "- Date: " (formatSDate t.date) (by decide)
        (formatSDate_no_nl t.date)) (by simp),
      split1_peel _ _ _ (line_no_nl "- Amount: " (intToString t.amount)
        (by decide) (intToString_no_nl t.amount)) (by simp),
      split1_peel _ _ _ (line_no_nl "- Type: " t.type_ (by decide) hty.1)
        (by simp),
      split1_peel _ _ _ (line_no_nl "- Category: " t.category (by decide)
        hcat.1) (by simp),
      split1_peel _ _ _ (line_no_nl "- Account: " t.account (by decide)
        hacc.1) (by simp),
      split1_peel _ _ _ (line_no_nl "- Description: " dsc (by decide) hdc.1)
        (by simp),
      split1_peel _ _ _ (line_no_nl "- Currency: " t.currency (by decide)
        hcuy.1) (by simp),
      split1_peel _ _ _ (line_no_nl "- ID: " t.id (by decide) hid.1)
        (by simp),
      split1_peel _ _ _ (by decide) (by simp)]
  rw [show ((joinNl [""]).data ++ tail) = tail from rfl]
  rw [parseTxLoop_header ("## Transaction " ++ t.id).data _ _ rfl]
  rw [show ("" : String).data = ([] : List Char) from rfl, parseTxLoop_blank]
  rw [parseTxLoop_field ("- Date: " ++ formatSDate t.date).data _ _ rfl rfl,
      show ("- Date: " ++ formatSDate t.date).data.drop 2 =
        "Date".data ++ ':' :: ' ' :: (formatSDate t.date).data from rfl,
      applyTx_date _ _ (formatSDate_no_cs t.date) (formatSDate_trim t.date)]
  rw [parseTxLoop_field ("- Amount: " ++ intToString t.amount).data _ _ rfl rfl,
      show ("- Amount: " ++ intToString t.amount).data.drop 2 =
        "Amount".data ++ ':' :: ' ' :: (intToString t.amount).data from rfl,
      applyTx_amount _ _ (intToString_no_cs t.amount) (intToString_trim t.amount)]
  rw [parseTxLoop_field ("- Type: " ++ t.type_).data _ _ rfl rfl,
      show ("- Type: " ++ t.type_).data.drop 2 =
        "Type".data ++ ':' :: ' ' :: t.type_.data from rfl,
      applyTx_type _ _ hty.2.1 hty.2.2]
  rw [parseTxLoop_field ("- Category: " ++ t.category).data _ _ rfl rfl,
      show ("- Category: " ++ t.category).data.drop 2 =
        "Category".data ++ ':' :: ' ' :: t.category.data from rfl,
      applyTx_category _ _ hcat.2.1 hcat.2.2]
  rw [parseTxLoop_field ("- Account: " ++ t.account).data _ _ rfl rfl,
      show ("- Account: " ++ t.account).data.drop 2 =
        "Account".data ++ ':' :: ' ' :: t.account.data from rfl,
      applyTx_account _ _ hacc.2.1 hacc.2.2]
  rw [parseTxLoop_field ("- Description: " ++ dsc).data _ _ rfl rfl,
      show ("- Description: " ++ dsc).data.drop 2 =
        "Description".data ++ ':' :: ' ' :: dsc.data from rfl,
      applyTx_description _ _ hdc.2.1 hdc.2.2]
  rw [parseTxLoop_field ("- Currency: " ++ t.currency).data _ _ rfl rfl,
      show ("- Currency: " ++ t.currency).data.drop 2 =
        "Currency".data ++ ':' :: ' ' :: t.currency.data from rfl,
      applyTx_currency _ _ hcuy.2.1 hcuy.2.2]
  rw [parseTxLoop_field ("- ID: " ++ t.id).data _ _ rfl rfl,
      show ("- ID: " ++ t.id).data.drop 2 =
        "ID".data ++ ':' :: ' ' :: t.id.data from rfl,
      applyTx_id _ _ hid.2.1 hid.2.2]
  rw [parseTxLoop_blank]
  simp only [mk_data_eta]
  rw [parseYmdL_formatSDate t.date hdate, jsParseFloatInt_intToString]
  simp only [Transaction.toParsed, hdsc]

/-! ### Claim C1 — codec round trip -/

/-- A transaction whose description contains `': '` (colon followed by a
space), the exact shape the decoder's `split(': ')` cuts at. -/
def c1bad : Transaction :=
  { id := "7f3a", date := ⟨2024, 3, 20⟩, amount := 100, type_ := "expense",
    category := "food", account := "cash", description := some "a: b",
    currency := "CNY" }

/-- A transaction whose description contains a literal colon NOT followed by
a space (which the decoder does preserve). -/
def c1colon : Transaction :=
  { id := "7f3a", date := ⟨2024, 3, 20⟩, amount := 100, type_ := "expense",
    category := "food", account := "cash",
    description := some "see http://x:1/a", currency := "CNY" }

/-- C1 counterexample: the claim fails as stated.  Encoding a record whose
description contains `"a: b"` and decoding it back does NOT return the
record: JS `split(': ')` cuts at EVERY occurrence of `': '` and the
destructuring keeps only the second part, so the description comes back
truncated to `"a"`. -/
theorem claim_C1_counterexample :
    parseTransactionsFromContent (formatTransaction c1bad) ≠ [c1bad.toParsed] ∧
      (parseTransactionsFromContent (formatTransaction c1bad)).map
        (fun p => p.description) = [some (some "a")] := by
  decide

/-- C1 (amended): for every Transaction whose description is present and
whose string fields contain no newline, no `': '` substring and are
`trim`-stable, and whose date is a valid calendar date, decoding the encoded
block returns exactly the record (dates by calendar value); in particular a
literal colon not followed by a space survives, but a `': '` does not (the
decoder cuts at every `': '`, not only the first colon after the label). -/
theorem claim_C1_roundtrip_amended (t : Transaction) (dsc : String)
    (hdsc : t.description = some dsc)
    (hid : cleanS t.id) (hty : cleanS t.type_) (hcat : cleanS t.category)
    (hacc : cleanS t.account) (hcuy : cleanS t.currency) (hdc : cleanS dsc)
    (hdate : isValidSDate t.date = true) :
    parseTransactionsFromContent (formatTransaction t) = [t.toParsed] := by
  have h := parseTx_block t dsc [] TxP.empty hdsc hid hty hcat hacc hcuy hdc
    hdate
  rw [List.append_nil] at h
  unfold parseTransactionsFromContent linesOf
  rw [h]
  rfl

/-- C1 witness: the amended round trip evaluated on a concrete record whose
description holds a URL with a literal colon. -/
theorem claim_C1_roundtrip_amended_witness :
    c1colon.description = some "see http://x:1/a" ∧
      cleanS c1colon.id ∧ cleanS "see http://x:1/a" ∧
      isValidSDate c1colon.date = true ∧
      parseTransactionsFromContent (formatTransaction c1colon) =
        [c1colon.toParsed] :=
  ⟨rfl, by decide, by decide, by decide,
    claim_C1_roundtrip_amended c1colon "see http://x:1/a" rfl (by decide)
      (by decide) (by decide) (by decide) (by decide) (by decide) (by decide)⟩

/-! ### Claim C2 — malformed block handling -/

/-- A Transaction block that lacks its `Amount` line (the malformed-document
family of §8's scenario; this builds the INPUT document, it embeds no source
function). -/
def formatTxBlockNoAmount (t : Transaction) : String :=
  joinNl
    ["## Transaction " ++ t.id,
     "",
     "- Date: " ++ formatSDate t.date,
     "- Type: " ++ t.type_,
     "- Category: " ++ t.category,
     "- Account: " ++ t.account,
     "- Description: " ++ jsTemplateStr t.description,
     "- Currency: " ++ t.currency,
     "- ID: " ++ t.id,
     "",
     ""]

/-- What the decoder accumulates for a block missing its Amount line: the
same record with the `amount` key never assigned. -/
def Transaction.toParsedNoAmount (t : Transaction) : TxP :=
  { t.toParsed with amount := none }

theorem parseTx_blockNoAmount (t : Transaction) (dsc : String)
    (tail : List Char) (cur : TxP)
    (hdsc : t.description = some dsc)
    (hid : cleanS t.id) (hty : cleanS t.type_) (hcat : cleanS t.category)
    (hacc : cleanS t.account) (hcuy : cleanS t.currency) (hdc : cleanS dsc)
    (hdate : isValidSDate t.date = true) :
    parseTxLoop (split1 '\n' ((formatTxBlockNoAmount t).data ++ tail)) cur =
      (if cur.hasKeys then [cur] else []) ++
        parseTxLoop (split1 '\n' tail) t.toParsedNoAmount := by
  have hjs : jsTemplateStr t.description = dsc := by rw [hdsc]; rfl
  unfold formatTxBlockNoAmount
  rw [hjs]
  rw [split1_peel _ _ _ (line_no_nl "## Transaction " t.id (by decide) hid.1)
        (by simp),
      split1_peel _ _ _ (by decide) (by simp),
      split1_peel _ _ _ (line_no_nl "- Date: " (formatSDate t.date) (by decide)
        (formatSDate_no_nl t.date)) (by simp),
      split1_peel _ _ _ (line_no_nl "- Type: " t.type_ (by decide) hty.1)
        (by simp),
      split1_peel _ _ _ (line_no_nl "- Category: " t.category (by decide)
        hcat.1) (by simp),
      split1_peel _ _ _ (line_no_nl "- Account: " t.account (by decide)
        hacc.1) (by simp),
      split1_peel _ _ _ (line_no_nl "- Description: " dsc (by decide) hdc.1)
        (by simp),
      split1_peel _ _ _ (line_no_nl "- Currency: " t.currency (by decide)
        hcuy.1) (by simp),
      split1_peel _ _ _ (line_no_nl "- ID: " t.id (by decide) hid.1)
        (by simp),
      split1_peel _ _ _ (by decide) (by simp)]
  rw [show ((joinNl [""]).data ++ tail) = tail from rfl]
  rw [parseTxLoop_header ("## Transaction " ++ t.id).data _ _ rfl]
  rw [show ("" : String).data = ([] : List Char) from rfl, parseTxLoop_blank]
  rw [parseTxLoop_field ("- Date: " ++ formatSDate t.date).data _ _ rfl rfl,
      show ("- Date: " ++ formatSDate t.date).data.drop 2 =
        "Date".data ++ ':' :: ' ' :: (formatSDate t.date).data from rfl,
      applyTx_date _ _ (formatSDate_no_cs t.date) (formatSDate_trim t.date)]
  rw [parseTxLoop_field ("- Type: " ++ t.type_).data _ _ rfl rfl,
      show ("- Type: " ++ t.type_).data.drop 2 =
        "Type".data ++ ':' :: ' ' :: t.type_.data from rfl,
      applyTx_type _ _ hty.2.1 hty.2.2]
  rw [parseTxLoop_field ("- Category: " ++ t.category).data _ _ rfl rfl,
      show ("- Category: " ++ t.category).data.drop 2 =
        "Category".data ++ ':' :: ' ' :: t.category.data from rfl,
      applyTx_category _ _ hcat.2.1 hcat.2.2]
  rw [parseTxLoop_field ("- Account: " ++ t.account).data _ _ rfl rfl,
      show ("- Account: " ++ t.account).data.drop 2 =
        "Account".data ++ ':' :: ' ' :: t.account.data from rfl,
      applyTx_account _ _ hacc.2.1 hacc.2.2]
  rw [parseTxLoop_field ("- Description: " ++ dsc).data _ _ rfl rfl,
      show ("- Description: " ++ dsc).data.drop 2 =
        "Description".data ++ ':' :: ' ' :: dsc.data from rfl,
      applyTx_description _ _ hdc.2.1 hdc.2.2]
  rw [parseTxLoop_field ("- Currency: " ++ t.currency).data _ _ rfl rfl,
      show ("- Currency: " ++ t.currency).data.drop 2 =
        "Currency".data ++ ':' :: ' ' :: t.currency.data from rfl,
      applyTx_currency _ _ hcuy.2.1 hcuy.2.2]
  rw [parseTxLoop_field ("- ID: " ++ t.id).data _ _ rfl rfl,
      show ("- ID: " ++ t.id).data.drop 2 =
        "ID".data ++ ':' :: ' ' :: t.id.data from rfl,
      applyTx_id _ _ hid.2.1 hid.2.2]
  rw [parseTxLoop_blank]
  simp only [mk_data_eta]
  rw [parseYmdL_formatSDate t.date hdate]
  simp only [Transaction.toParsedNoAmount, Transaction.toParsed, TxP.empty,
    hdsc]

def c2good : Transaction :=
  { id := "id1", date := ⟨2024, 3, 20⟩, amount := 100, type_ := "expense",
    category := "food", account := "cash", description := some "lunch",
    currency := "CNY" }

def c2bad : Transaction :=
  { id := "id2", date := ⟨2024, 3, 21⟩, amount := 0, type_ := "income",
    category := "pay", account := "bank", description := some "d",
    currency := "CNY" }

/-- The C2 scenario document: one well-formed block, one block missing its
`Amount` line. -/
def c2doc : String := formatTransaction c2good ++ formatTxBlockNoAmount c2bad

/-- C2 counterexample: the decoder does NOT return exactly one record for a
document with one well-formed block and one block lacking `Amount` — it
returns two, keeping the malformed block as a partial record. -/
theorem claim_C2_counterexample :
    parseTransactionsFromContent c2doc ≠ [c2good.toParsed] ∧
      (parseTransactionsFromContent c2doc).length = 2 := by
  decide

/-- C2 (amended): for every document made of one well-formed Transaction
block followed by one block lacking its `Amount` line (fields clean in the
sense of `cleanS`), the decoder returns BOTH records — the malformed block
is not excluded but comes back as a partial record whose `amount` key was
never assigned; decoding is a total function, so the malformed block never
causes the whole decode to fail. -/
theorem claim_C2_amended (t1 t2 : Transaction) (dsc1 dsc2 : String)
    (hdsc1 : t1.description = some dsc1) (hdsc2 : t2.description = some dsc2)
    (hid1 : cleanS t1.id) (hty1 : cleanS t1.type_) (hcat1 : cleanS t1.category)
    (hacc1 : cleanS t1.account) (hcuy1 : cleanS t1.currency)
    (hdc1 : cleanS dsc1) (hdate1 : isValidSDate t1.date = true)
    (hid2 : cleanS t2.id) (hty2 : cleanS t2.type_) (hcat2 : cleanS t2.category)
    (hacc2 : cleanS t2.account) (hcuy2 : cleanS t2.currency)
    (hdc2 : cleanS dsc2) (hdate2 : isValidSDate t2.date = true) :
    parseTransactionsFromContent
        (formatTransaction t1 ++ formatTxBlockNoAmount t2) =
      [t1.toParsed, t2.toParsedNoAmount] ∧
      (t2.toParsedNoAmount).amount = none := by
  constructor
  · unfold parseTransactionsFromContent linesOf
    rw [String.data_append]
    rw [parseTx_block t1 dsc1 _ TxP.empty hdsc1 hid1 hty1 hcat1 hacc1 hcuy1
      hdc1 hdate1]
    rw [show (formatTxBlockNoAmount t2).data =
      (formatTxBlockNoAmount t2).data ++ [] from (List.append_nil _).symm]
    rw [parseTx_blockNoAmount t2 dsc2 [] _ hdsc2 hid2 hty2 hcat2 hacc2 hcuy2
      hdc2 hdate2]
    rfl
  · rfl

/-- C2 witness: the amended statement evaluated on the concrete scenario
document `c2doc`. -/
theorem claim_C2_amended_witness :
    c2good.description = some "lunch" ∧ isValidSDate c2good.date = true ∧
      isValidSDate c2bad.date = true ∧
      parseTransactionsFromContent c2doc =
        [c2good.toParsed, c2bad.toParsedNoAmount] ∧
      (c2bad.toParsedNoAmount).amount = none :=
  ⟨rfl, by decide, by decide,
    ((claim_C2_amended c2good c2bad "lunch" "d" rfl rfl (by decide) (by decide)
      (by decide) (by decide) (by decide) (by decide) (by decide) (by decide)
      (by decide) (by decide) (by decide) (by decide) (by decide)
      (by decide)).1 :
        parseTransactionsFromContent c2doc =
          [c2good.toParsed, c2bad.toParsedNoAmount]),
    (claim_C2_amended c2good c2bad "lunch" "d" rfl rfl (by decide) (by decide)
      (by decide) (by decide) (by decide) (by decide) (by decide) (by decide)
      (by decide) (by decide) (by decide) (by decide) (by decide)
      (by decide)).2⟩

/-! ### Claim C8 — update/delete on a missing id fail before any write -/

/-- An empty vault for concrete instantiations. -/
def emptyStore : Store := ⟨fun _ => none, fun _ => none, fun _ => none⟩

/-- C8: for an id absent from the in-memory cache, each repository's update
and delete throw their not-found error and return with the vault, the cache
and the action trace untouched (no write, no event, nothing read). -/
theorem claim_C8_notfound_fails_clean (cy : Nat) (s : Store)
    (stT : TxState) (stB : BState) (stR : RState)
    (t : Transaction) (b : Budget) (r : RecurringTransaction)
    (idT idB idR : String)
    (hTu : ∀ p ∈ stT.transactions, ¬ p.id = some (some t.id))
    (hTd : ∀ p ∈ stT.transactions, ¬ p.id = some (some idT))
    (hBu : ∀ p ∈ stB.budgets, ¬ p.id = some (some b.id))
    (hBd : ∀ p ∈ stB.budgets, ¬ p.id = some (some idB))
    (hRu : ∀ p ∈ stR.recurringTransactions, ¬ p.id = some (some r.id))
    (hRd : ∀ p ∈ stR.recurringTransactions, ¬ p.id = some (some idR)) :
    updateTransaction cy s stT t =
        ⟨.error "Transaction not found", s, stT, []⟩ ∧
      deleteTransaction cy s stT idT =
        ⟨.error "Transaction not found", s, stT, []⟩ ∧
      updateBudget cy s stB b = ⟨.error "Budget not found", s, stB, []⟩ ∧
      deleteBudget cy s stB idB = ⟨.error "Budget not found", s, stB, []⟩ ∧
      updateRecurringTransaction s stR r =
        ⟨.error "Recurring transaction not found", s, stR, []⟩ ∧
      deleteRecurringTransaction s stR idR =
        ⟨.error "Recurring transaction not found", s, stR, []⟩ := by
  have eTu : stT.transactions.findIdx? (fun p => p.id == some (some t.id)) = none := by
    rw [List.findIdx?_eq_none_iff]
    exact fun p hp => beq_eq_false_iff_ne.mpr (hTu p hp)
  have eTd : stT.transactions.findIdx? (fun p => p.id == some (some idT)) = none := by
    rw [List.findIdx?_eq_none_iff]
    exact fun p hp => beq_eq_false_iff_ne.mpr (hTd p hp)
  have eBu : stB.budgets.findIdx? (fun p => p.id == some (some b.id)) = none := by
    rw [List.findIdx?_eq_none_iff]
    exact fun p hp => beq_eq_false_iff_ne.mpr (hBu p hp)
  have eBd : stB.budgets.findIdx? (fun p => p.id == some (some idB)) = none := by
    rw [List.findIdx?_eq_none_iff]
    exact fun p hp => beq_eq_false_iff_ne.mpr (hBd p hp)
  have eRu : stR.recurringTransactions.findIdx?
      (fun p => p.id == some (some r.id)) = none := by
    rw [List.findIdx?_eq_none_iff]
    exact fun p hp => beq_eq_false_iff_ne.mpr (hRu p hp)
  have eRd : stR.recurringTransactions.findIdx?
      (fun p => p.id == some (some idR)) = none := by
    rw [List.findIdx?_eq_none_iff]
    exact fun p hp => beq_eq_false_iff_ne.mpr (hRd p hp)
  refine ⟨?_, ?_, ?_, ?_, ?_, ?_⟩
  · simp [updateTransaction, eTu]
  · simp [deleteTransaction, eTd]
  · simp [updateBudget, eBu]
  · simp [deleteBudget, eBd]
  · simp [updateRecurringTransaction, eRu]
  · simp [deleteRecurringTransaction, eRd]

/-- C8 witness: concrete empty caches and a concrete store. -/
theorem claim_C8_notfound_witness :
    updateTransaction 2024 emptyStore ⟨[], true⟩
        c1colon = ⟨.error "Transaction not found", emptyStore, ⟨[], true⟩, []⟩ ∧
      deleteTransaction 2024 emptyStore ⟨[], true⟩ "nope" =
        ⟨.error "Transaction not found", emptyStore, ⟨[], true⟩, []⟩ ∧
      updateBudget 2024 emptyStore ⟨[], true⟩
          (mkBudget ⟨5, "c", "monthly", none, none, "CNY"⟩ "b1") =
        ⟨.error "Budget not found", emptyStore, ⟨[], true⟩, []⟩ ∧
      deleteBudget 2024 emptyStore ⟨[], true⟩ "nope" =
        ⟨.error "Budget not found", emptyStore, ⟨[], true⟩, []⟩ ∧
      updateRecurringTransaction emptyStore ⟨[]⟩
          (mkRecurring ⟨5, "income", "c", "a", none, "monthly", ⟨2024, 1, 1⟩,
            none, "CNY"⟩ "r1") =
        ⟨.error "Recurring transaction not found", emptyStore, ⟨[]⟩, []⟩ ∧
      deleteRecurringTransaction emptyStore ⟨[]⟩ "nope" =
        ⟨.error "Recurring transaction not found", emptyStore, ⟨[]⟩, []⟩ :=
  claim_C8_notfound_fails_clean 2024 emptyStore ⟨[], true⟩ ⟨[], true⟩ ⟨[]⟩
    c1colon (mkBudget ⟨5, "c", "monthly", none, none, "CNY"⟩ "b1")
    (mkRecurring ⟨5, "income", "c", "a", none, "monthly", ⟨2024, 1, 1⟩, none,
      "CNY"⟩ "r1")
    "nope" "nope" "nope"
    (by simp) (by simp) (by simp) (by simp) (by simp) (by simp)

/-! ### Claim C10 — update with a cached id that is absent from the document -/

/-- C10: when the id is in the cache but no line of the record-year document
contains it, `updateTransaction` resolves successfully with the record,
writes nothing (the vault is returned untouched, the trace holds only the
change-signal emission), and the cache is re-parsed from the unchanged
current-year document. -/
theorem claim_C10_update_ghost_id (cy : Nat) (s : Store) (st : TxState)
    (t : Transaction) (c ccur : String)
    (hfound : (st.transactions.findIdx?
      (fun p => p.id == some (some t.id))).isSome = true)
    (hdoc : s.txDocs t.date.year = some c)
    (hnoline : (linesOf c).findIdx? (isTxHeaderFor t.id) = none)
    (hcur : s.txDocs cy = some ccur) :
    updateTransaction cy s st t =
      ⟨.ok t, s, { st with transactions := parseTransactionsFromContent ccur },
        [.emit TRANSACTION_CHANGED]⟩ := by
  obtain ⟨i, hi⟩ := Option.isSome_iff_exists.mp hfound
  simp [updateTransaction, hi, updateTransactionInContent, getOrCreateTxFile,
    hdoc, hnoline, loadTransactions, hcur]

def c10doc : String := "# 2024 Transactions\n\n"

def c10tx : Transaction :=
  { id := "tid", date := ⟨2024, 3, 20⟩, amount := 7, type_ := "expense",
    category := "c", account := "a", description := some "d",
    currency := "CNY" }

def c10store : Store :=
  ⟨fun y => if y = 2024 then some c10doc else none, fun _ => none,
    fun _ => none⟩

/-- C10 witness: a cache holding the id `tid` over a document with no `tid`
line. -/
theorem claim_C10_update_ghost_id_witness :
    updateTransaction 2024 c10store
        ⟨[{ TxP.empty with id := some (some "tid") }], true⟩ c10tx =
      ⟨.ok c10tx, c10store,
        ⟨parseTransactionsFromContent c10doc, true⟩,
        [.emit TRANSACTION_CHANGED]⟩ :=
  claim_C10_update_ghost_id 2024 c10store
    ⟨[{ TxP.empty with id := some (some "tid") }], true⟩ c10tx c10doc c10doc
    (by decide) (by decide) (by decide) (by decide)

/-! ### Claim C5 — change-signal emission -/

/-- The trace is some writes followed by exactly one emission of `sig`,
last: the signal fires after every write of the mutation has completed. -/
def emitsAfterWrites (acts : List Act) (sig : String) : Prop :=
  ∃ w, acts = w ++ [Act.emit sig] ∧ ∀ a ∈ w, a.isWrite = true

/-- The trace contains no emission at all. -/
def noEmits (acts : List Act) : Prop := ∀ a ∈ acts, a.isEmit = false

theorem isWrite_not_emit (a : Act) (h : a.isWrite = true) : a.isEmit = false := by
  cases a <;> simp_all [Act.isWrite, Act.isEmit]

theorem getOrCreateTxFile_writes (s : Store) (y : Nat) :
    ∀ a ∈ (getOrCreateTxFile s y).2.2, a.isWrite = true := by
  cases h : s.txDocs y <;> simp [getOrCreateTxFile, h, Act.isWrite]

theorem getOrCreateBudgetFile_writes (s : Store) (y : Nat) :
    ∀ a ∈ (getOrCreateBudgetFile s y).2.2, a.isWrite = true := by
  cases h : s.budgetDocs y <;> simp [getOrCreateBudgetFile, h, Act.isWrite]

theorem getOrCreateRecFile_writes (s : Store) (y : Nat) :
    ∀ a ∈ (getOrCreateRecFile s y).2.2, a.isWrite = true := by
  cases h : s.recDocs y <;> simp [getOrCreateRecFile, h, Act.isWrite]

theorem addTransactionToContent_writes (s : Store) (t : Transaction) :
    ∀ a ∈ (addTransactionToContent s t).2, a.isWrite = true := by
  unfold addTransactionToContent
  intro a ha
  rcases List.mem_append.mp ha with h | h
  · exact getOrCreateTxFile_writes s _ a h
  · simp at h
    subst h
    rfl

theorem updateTransactionInContent_writes (s : Store) (t : Transaction) :
    ∀ a ∈ (updateTransactionInContent s t).2, a.isWrite = true := by
  intro a ha
  rcases hf : (linesOf (getOrCreateTxFile s t.date.year).1).findIdx?
      (isTxHeaderFor t.id) with _ | i <;>
    simp only [updateTransactionInContent, hf] at ha
  · exact getOrCreateTxFile_writes s _ a ha
  · rcases List.mem_append.mp ha with h | h
    · exact getOrCreateTxFile_writes s _ a h
    · simp at h
      subst h
      rfl

theorem deleteTransactionFromContent_writes (s : Store) (id : String)
    (d : JsDate) : ∀ a ∈ (deleteTransactionFromContent s id d).2,
      a.isWrite = true := by
  intro a ha
  rcases hf : (linesOf (getOrCreateTxFile s (jsYearOf d)).1).findIdx?
      (isTxHeaderFor id) with _ | i <;>
    simp only [deleteTransactionFromContent, hf] at ha
  · exact getOrCreateTxFile_writes s _ a ha
  · rcases List.mem_append.mp ha with h | h
    · exact getOrCreateTxFile_writes s _ a h
    · simp at h
      subst h
      rfl

theorem loadTransactions_writes (s : Store) (cy : Nat) :
    ∀ a ∈ (loadTransactions s cy).2.2, a.isWrite = true := by
  unfold loadTransactions
  exact getOrCreateTxFile_writes s cy

/-- C5 (amended): Transaction and Recurring mutations emit their change
signal exactly once, as the last trace action, after every write of the
mutation; Budget mutations (add, update, delete) never emit anything. -/
theorem claim_C5_emissions (cy : Nat) (s : Store)
    (stT : TxState) (stB : BState) (stR : RState)
    (ti : TxInput) (t : Transaction) (idT newIdT : String)
    (bi : BudgetInput) (b : Budget) (idB newIdB : String)
    (ri : RecInput) (r : RecurringTransaction) (idR newIdR : String)
    (hTu : (stT.transactions.findIdx?
      (fun p => p.id == some (some t.id))).isSome = true)
    (hTd : (stT.transactions.findIdx?
      (fun p => p.id == some (some idT))).isSome = true)
    (hRu : (stR.recurringTransactions.findIdx?
      (fun p => p.id == some (some r.id))).isSome = true)
    (hRd : (stR.recurringTransactions.findIdx?
      (fun p => p.id == some (some idR))).isSome = true) :
    emitsAfterWrites (addTransaction cy s stT ti newIdT).acts
        TRANSACTION_CHANGED ∧
      emitsAfterWrites (updateTransaction cy s stT t).acts
        TRANSACTION_CHANGED ∧
      emitsAfterWrites (deleteTransaction cy s stT idT).acts
        TRANSACTION_CHANGED ∧
      emitsAfterWrites (addRecurringTransaction s stR ri newIdR).acts
        RECURRING_TRANSACTION_CHANGED ∧
      emitsAfterWrites (updateRecurringTransaction s stR r).acts
        RECURRING_TRANSACTION_CHANGED ∧
      emitsAfterWrites (deleteRecurringTransaction s stR idR).acts
        RECURRING_TRANSACTION_CHANGED ∧
      noEmits (addBudget cy s stB bi newIdB).acts ∧
      noEmits (updateBudget cy s stB b).acts ∧
      noEmits (deleteBudget cy s stB idB).acts := by
  obtain ⟨iu, hiu⟩ := Option.isSome_iff_exists.mp hTu
  obtain ⟨idd, hid⟩ := Option.isSome_iff_exists.mp hTd
  obtain ⟨ju, hju⟩ := Option.isSome_iff_exists.mp hRu
  obtain ⟨jd, hjd⟩ := Option.isSome_iff_exists.mp hRd
  refine ⟨?_, ?_, ?_, ?_, ?_, ?_, ?_, ?_, ?_⟩
  · refine ⟨(addTransactionToContent s (mkTransaction ti newIdT)).2 ++
      (loadTransactions (addTransactionToContent s
        (mkTransaction ti newIdT)).1 cy).2.2, ?_, ?_⟩
    · simp [addTransaction]
    · intro a ha
      rcases List.mem_append.mp ha with h | h
      · exact addTransactionToContent_writes _ _ a h
      · exact loadTransactions_writes _ _ a h
  · refine ⟨(updateTransactionInContent s t).2 ++
      (loadTransactions (updateTransactionInContent s t).1 cy).2.2, ?_, ?_⟩
    · simp [updateTransaction, hiu]
    · intro a ha
      rcases List.mem_append.mp ha with h | h
      · exact updateTransactionInContent_writes _ _ a h
      · exact loadTransactions_writes _ _ a h
  · refine ⟨(deleteTransactionFromContent s idT
        ((stT.transactions.getD idd TxP.empty).date.getD none)).2 ++
      (loadTransactions (deleteTransactionFromContent s idT
        ((stT.transactions.getD idd TxP.empty).date.getD none)).1 cy).2.2,
      ?_, ?_⟩
    · simp [deleteTransaction, hid]
    · intro a ha
      rcases List.mem_append.mp ha with h | h
      · exact deleteTransactionFromContent_writes _ _ _ a h
      · exact loadTransactions_writes _ _ a h
  · refine ⟨(getOrCreateRecFile s (mkRecurring ri newIdR).startDate.year).2.2 ++
      [.modify RKind.recur (mkRecurring ri newIdR).startDate.year
        ((getOrCreateRecFile s (mkRecurring ri newIdR).startDate.year).1 ++
          formatRecurringTransaction (mkRecurring ri newIdR))], ?_, ?_⟩
    · simp [addRecurringTransaction]
    · intro a ha
      rcases List.mem_append.mp ha with h | h
      · exact getOrCreateRecFile_writes _ _ a h
      · simp at h
        subst h
        rfl
  · refine ⟨(updateRecurringInContent s r).2, ?_, ?_⟩
    · simp [updateRecurringTransaction, hju]
    · intro a ha
      rcases hf : (linesOf (getOrCreateRecFile s r.startDate.year).1).findIdx?
          (isRecHeaderFor r.id) with _ | i <;>
        simp only [updateRecurringInContent, hf] at ha
      · exact getOrCreateRecFile_writes _ _ a ha
      · rcases List.mem_append.mp ha with h | h
        · exact getOrCreateRecFile_writes _ _ a h
        · simp at h
          subst h
          rfl
  · refine ⟨(deleteRecurringFromContent s idR
      ((stR.recurringTransactions.getD jd RecP.empty).startDate.getD none)).2,
      ?_, ?_⟩
    · simp [deleteRecurringTransaction, hjd]
    · intro a ha
      rcases hf : (linesOf (getOrCreateRecFile s (jsYearOf
          ((stR.recurringTransactions.getD jd RecP.empty).startDate.getD
            none))).1).findIdx? (isRecHeaderFor idR) with _ | i <;>
        simp only [deleteRecurringFromContent, hf] at ha
      · exact getOrCreateRecFile_writes _ _ a ha
      · rcases List.mem_append.mp ha with h | h
        · exact getOrCreateRecFile_writes _ _ a h
        · simp at h
          subst h
          rfl
  · intro a ha
    simp only [addBudget] at ha
    rcases List.mem_append.mp ha with h | h
    · exact isWrite_not_emit a (getOrCreateBudgetFile_writes _ _ a h)
    · simp at h
      subst h
      rfl
  · intro a ha
    rcases hf : stB.budgets.findIdx? (fun p => p.id == some (some b.id))
        with _ | i <;> simp only [updateBudget, hf] at ha
    · simp at ha
    · apply isWrite_not_emit
      rcases hg : (linesOf (getOrCreateBudgetFile s cy).1).findIdx?
          (isBudgetHeaderFor b.id) with _ | j <;>
        simp only [updateBudgetInContent, hg] at ha
      · exact getOrCreateBudgetFile_writes _ _ a ha
      · rcases List.mem_append.mp ha with h | h
        · exact getOrCreateBudgetFile_writes _ _ a h
        · simp at h
          subst h
          rfl
  · intro a ha
    rcases hf : stB.budgets.findIdx? (fun p => p.id == some (some idB))
        with _ | i <;> simp only [deleteBudget, hf] at ha
    · simp at ha
    · apply isWrite_not_emit
      rcases hg : (linesOf (getOrCreateBudgetFile s cy).1).findIdx?
          (isBudgetHeaderFor idB) with _ | j <;>
        simp only [deleteBudgetFromContent, hg] at ha
      · exact getOrCreateBudgetFile_writes _ _ a ha
      · rcases List.mem_append.mp ha with h | h
        · exact getOrCreateBudgetFile_writes _ _ a h
        · simp at h
          subst h
          rfl

def c5ti : TxInput :=
  { date := ⟨2024, 3, 20⟩, amount := 100, type_ := "expense",
    category := "food", account := "cash", description := some "lunch",
    currency := "CNY" }

def c5bi : BudgetInput :=
  { amount := 500, category := "food", period := "monthly",
    description := none, status := none, currency := "CNY" }

def c5ri : RecInput :=
  { amount := 12, type_ := "expense", category := "sub", account := "card",
    description := some "x", frequency := "monthly",
    startDate := ⟨2024, 1, 1⟩, endDate := none, currency := "CNY" }

def c5stT : TxState := ⟨[{ TxP.empty with id := some (some "tid") }], true⟩

def c5rp : RecP :=
  { RecP.empty with id := some (some "rid"), startDate := some (some ⟨2024, 1, 1⟩) }

def c5stR : RState := ⟨[c5rp]⟩

/-- C5 counterexample: a successful `addBudget` whose trace contains no
emission at all — in particular no `budget-changed` signal. -/
theorem claim_C5_counterexample :
    (addBudget 2024 emptyStore ⟨[], true⟩ c5bi "b9").result =
        .ok (mkBudget c5bi "b9") ∧
      (addBudget 2024 emptyStore ⟨[], true⟩ c5bi "b9").acts.filter
        Act.isEmit = [] := by
  constructor
  · rfl
  · rfl

/-- C5 witness: the amended emission statement evaluated on concrete
operations. -/
theorem claim_C5_emissions_witness :
    (c5stT.transactions.findIdx?
        (fun p => p.id == some (some c10tx.id))).isSome = true ∧
      emitsAfterWrites (addTransaction 2024 emptyStore c5stT c5ti "newT").acts
        TRANSACTION_CHANGED ∧
      emitsAfterWrites
        (addRecurringTransaction emptyStore c5stR c5ri "newR").acts
        RECURRING_TRANSACTION_CHANGED ∧
      noEmits (addBudget 2024 emptyStore ⟨[], true⟩ c5bi "newB").acts :=
  ⟨by decide,
    (claim_C5_emissions 2024 emptyStore c5stT ⟨[], true⟩ c5stR c5ti c10tx
      "tid" "newT" c5bi (mkBudget c5bi "b1") "b1" "newB" c5ri
      (mkRecurring c5ri "rid") "rid" "newR" (by decide) (by decide)
      (by decide) (by decide)).1,
    (claim_C5_emissions 2024 emptyStore c5stT ⟨[], true⟩ c5stR c5ti c10tx
      "tid" "newT" c5bi (mkBudget c5bi "b1") "b1" "newB" c5ri
      (mkRecurring c5ri "rid") "rid" "newR" (by decide) (by decide)
      (by decide) (by decide)).2.2.2.1,
    (claim_C5_emissions 2024 emptyStore c5stT ⟨[], true⟩ c5stR c5ti c10tx
      "tid" "newT" c5bi (mkBudget c5bi "b1") "b1" "newB" c5ri
      (mkRecurring c5ri "rid") "rid" "newR" (by decide) (by decide)
      (by decide) (by decide)).2.2.2.2.2.2.1⟩

/-! ### Claim C3 — cache vs. durable copy after a mutation -/

/-- C3 (amended): after `addTransaction` the Transaction cache is fully
reloaded from the store — when the record's year is the wall-clock current
year, the cache equals the decode of the exact document text just written.
Budget and Recurring adds instead patch their caches in place (append the
constructed object) without re-reading the store. -/
theorem claim_C3_cache_after_add (cy : Nat) (s : Store)
    (stT : TxState) (stB : BState) (stR : RState)
    (ti : TxInput) (bi : BudgetInput) (ri : RecInput)
    (idT idB idR : String)
    (hy : ti.date.year = cy) :
    ((addTransaction cy s stT ti idT).store.txDocs cy =
        some ((getOrCreateTxFile s cy).1 ++
          formatTransaction (mkTransaction ti idT)) ∧
      (addTransaction cy s stT ti idT).state.transactions =
        parseTransactionsFromContent ((getOrCreateTxFile s cy).1 ++
          formatTransaction (mkTransaction ti idT))) ∧
      (addBudget cy s stB bi idB).state.budgets =
        stB.budgets ++ [(mkBudget bi idB).toParsed] ∧
      (addRecurringTransaction s stR ri idR).state.recurringTransactions =
        stR.recurringTransactions ++ [(mkRecurring ri idR).toParsed] := by
  refine ⟨⟨?_, ?_⟩, rfl, rfl⟩
  · simp only [addTransaction, addTransactionToContent, mkTransaction, hy,
      loadTransactions, getOrCreateTxFile]
    cases hg : s.txDocs cy <;>
      simp [hg, Store.putTx, getOrCreateTxFile, mkTransaction]
  · simp only [addTransaction, addTransactionToContent, mkTransaction, hy,
      loadTransactions, getOrCreateTxFile]
    cases hg : s.txDocs cy <;>
      simp [hg, Store.putTx, getOrCreateTxFile, mkTransaction]

/-- C3 counterexample: after a Budget add (no description), the in-memory
cache does NOT equal the decode of the document text just written — the
cache holds the constructed object (description `undefined`) while the
document decodes with description `""`; the Budget repository never reloads. -/
theorem claim_C3_counterexample :
    (addBudget 2024 emptyStore ⟨[], true⟩ c5bi "b7").store.budgetDocs 2024 =
        some (getInitialBudgetContent 2024 ++ formatBudget (mkBudget c5bi "b7")) ∧
      (addBudget 2024 emptyStore ⟨[], true⟩ c5bi "b7").state.budgets ≠
        parseBudgetsFromContent
          (getInitialBudgetContent 2024 ++ formatBudget (mkBudget c5bi "b7")) := by
  constructor
  · rfl
  · decide

/-- C3 witness: the amended statement at a concrete year-matching add. -/
theorem claim_C3_cache_after_add_witness :
    c5ti.date.year = 2024 ∧
      (addTransaction 2024 emptyStore ⟨[], true⟩ c5ti "w3").state.transactions =
        parseTransactionsFromContent ((getOrCreateTxFile emptyStore 2024).1 ++
          formatTransaction (mkTransaction c5ti "w3")) :=
  ⟨by decide,
    ((claim_C3_cache_after_add 2024 emptyStore ⟨[], true⟩ ⟨[], true⟩ ⟨[]⟩
      c5ti c5bi c5ri "w3" "w4" "w5" (by decide)).1).2⟩

/-! ### Claim C4 — query results vs. stored records -/

theorem containsL_three_head {x y z c d e : Char} {es : List Char}
    (h : containsL [x, y, z] (c :: d :: e :: es) = false) :
    ¬(c = x ∧ d = y ∧ e = z) ∧ containsL [x, y, z] (d :: e :: es) = false := by
  have h' : (startsWithL [x, y, z] (c :: d :: e :: es) ||
      containsL [x, y, z] (d :: e :: es)) = false := h
  rw [Bool.or_eq_false_iff] at h'
  refine ⟨?_, h'.2⟩
  rintro ⟨rfl, rfl, rfl⟩
  have hs := h'.1
  simp [startsWithL] at hs

theorem split3_no_sep (x y z : Char) (l : List Char)
    (h : containsL [x, y, z] l = false) :
    split3 x y z l = [l] := by
  induction l with
  | nil => rfl
  | cons c cs ih =>
    cases cs with
    | nil => rfl
    | cons d ds =>
      cases ds with
      | nil => rfl
      | cons e es =>
        have h3 := containsL_three_head h
        have e1 : split3 x y z (c :: d :: e :: es) =
            if c = x ∧ d = y ∧ e = z then [] :: split3 x y z es
            else consHead c (split3 x y z (d :: e :: es)) := rfl
        rw [e1, if_neg h3.1, ih h3.2, consHead_cons]

theorem startsWith_dash_append (cs v : List Char)
    (hcs : cs.all (fun c => !(c = '-')) = true)
    (hv : startsWithL ['-', ' '] v = false) :
    startsWithL ['-', ' '] (cs ++ v) = false := by
  cases cs with
  | nil => exact hv
  | cons d ds =>
    simp only [List.all_cons, Bool.and_eq_true, Bool.not_eq_eq_eq_not,
      Bool.not_true, decide_eq_false_iff_not] at hcs
    rw [show startsWithL ['-', ' '] ((d :: ds) ++ v) =
      (decide ('-' = d) && startsWithL [' '] (ds ++ v)) from rfl,
      decide_eq_false (fun he => hcs.1 he.symm), Bool.false_and]

/-- No `' - '` occurrence in `label ++ v` when the label is dash-free, `v`
has no `' - '`, and `v` does not begin with `'- '` (which could complete an
occurrence across the boundary). -/
theorem containsL3_label (label v : List Char)
    (hl : label.all (fun c => !(c = '-')) = true)
    (hv : containsL [' ', '-', ' '] v = false)
    (hv2 : startsWithL ['-', ' '] v = false) :
    containsL [' ', '-', ' '] (label ++ v) = false := by
  induction label with
  | nil => exact hv
  | cons c cs ih =>
    simp only [List.all_cons, Bool.and_eq_true] at hl
    have hsd : startsWithL ['-', ' '] (cs ++ v) = false :=
      startsWith_dash_append cs v hl.2 hv2
    have hs : startsWithL [' ', '-', ' '] (c :: (cs ++ v)) = false := by
      rw [show startsWithL [' ', '-', ' '] (c :: (cs ++ v)) =
        (decide (' ' = c) && startsWithL ['-', ' '] (cs ++ v)) from rfl,
        hsd, Bool.and_false]
    rw [show containsL [' ', '-', ' '] ((c :: cs) ++ v) =
      (startsWithL [' ', '-', ' '] (c :: (cs ++ v)) ||
        containsL [' ', '-', ' '] (cs ++ v)) from rfl,
      hs, ih hl.2, Bool.false_or]

theorem startsWithL_dash_append_digits (l r : List Char) (hne : l ≠ [])
    (h : l.all Char.isDigit = true) :
    startsWithL ['-', ' '] (l ++ r) = false := by
  cases l with
  | nil => exact absurd rfl hne
  | cons c cs =>
    simp only [List.all_cons, Bool.and_eq_true] at h
    have hc : ¬('-' = c) := fun he =>
      (isDigit_char_facts c h.1).2.2.2.1 he.symm
    rw [show startsWithL ['-', ' '] ((c :: cs) ++ r) =
      (decide ('-' = c) && startsWithL [' '] (cs ++ r)) from rfl,
      decide_eq_false hc, Bool.false_and]

theorem formatSDate_data_eq (d : SDate) :
    (formatSDate d).data =
      padZero 4 (printNat d.year) ++ '-' ::
        (padZero 2 (printNat d.month) ++ '-' :: padZero 2 (printNat d.day)) := by
  show (padZero 4 (printNat d.year) ++ ('-' :: padZero 2 (printNat d.month))) ++
    ('-' :: padZero 2 (printNat d.day)) = _
  rw [List.append_assoc]
  rfl

theorem formatSDate_no_sds (d : SDate) :
    containsL [' ', '-', ' '] (formatSDate d).data = false :=
  containsL_of_no_head ' ' ['-', ' '] _ (formatSDate_all d _
    (fun c hc => by simp [(isDigit_char_facts c hc).2.2.1]) (by decide))

theorem formatSDate_not_dash_start (d : SDate) :
    startsWithL ['-', ' '] (formatSDate d).data = false := by
  rw [formatSDate_data_eq]
  exact startsWithL_dash_append_digits _ _
    (fun he => printNat_ne_nil d.year (List.append_eq_nil.mp he).2)
    (padZero_all_digits 4 (printNat_all_digits d.year))

theorem printNat_not_dash_start (n : Nat) (r : List Char) :
    startsWithL ['-', ' '] (printNat n ++ r) = false :=
  startsWithL_dash_append_digits _ _ (printNat_ne_nil n)
    (printNat_all_digits n)

theorem printInt_no_sds (a : Int) :
    containsL [' ', '-', ' '] (intToString a).data = false :=
  containsL_of_no_head ' ' ['-', ' '] _ (printInt_all a _
    (fun c hc => by simp [(isDigit_char_facts c hc).2.2.1]) (by decide))

theorem printInt_not_dash_start (a : Int) :
    startsWithL ['-', ' '] (intToString a).data = false := by
  unfold intToString printInt
  by_cases h : a < 0
  · simp only [if_pos h]
    cases hp : printNat a.natAbs with
    | nil => exact absurd hp (printNat_ne_nil _)
    | cons c cs =>
      have hd : c.isDigit = true := by
        have := printNat_all_digits a.natAbs
        rw [hp] at this
        simp only [List.all_cons, Bool.and_eq_true] at this
        exact this.1
      have hc : ¬(' ' = c) := fun he =>
        (isDigit_char_facts c hd).2.2.1 he.symm
      rw [show startsWithL ['-', ' '] (String.data ⟨'-' :: c :: cs⟩) =
        (decide ('-' = '-') && (decide (' ' = c) && startsWithL [] cs)) from rfl,
        decide_eq_false hc]
      rfl
  · simp only [if_neg h]
    have := printNat_not_dash_start a.toNat []
    rwa [List.append_nil] at this

/-- Field values that cannot fake a `' - '`-separated query line: no
newline, no `' - '` substring, and not starting with `'- '`. -/
def cleanB (s : String) : Prop :=
  s.data.all (fun c => !(c = '\n')) = true ∧
  containsL [' ', '-', ' '] s.data = false ∧
  startsWithL ['-', ' '] s.data = false

instance (s : String) : Decidable (cleanB s) := by
  unfold cleanB
  infer_instance

theorem scanBudgetLines_skip (idGen : Nat → String) (l : List Char)
    (rest : List (List Char)) (k : Nat)
    (h : startsWithL "- ".data l = false) :
    scanBudgetLines idGen (l :: rest) k = scanBudgetLines idGen rest (k + 1) := by
  simp [scanBudgetLines, h]

theorem scanBudgetLines_none (idGen : Nat → String) (l : List Char)
    (rest : List (List Char)) (k : Nat)
    (h : parseBudgetLine (idGen k) l = none) :
    scanBudgetLines idGen (l :: rest) k = scanBudgetLines idGen rest (k + 1) := by
  by_cases hs : startsWithL "- ".data l = true
  · simp [scanBudgetLines, hs, h]
  · simp [scanBudgetLines, Bool.of_not_eq_true hs]

theorem parseBudgetLine_none_single (fid : String) (l : List Char)
    (h : split3 ' ' '-' ' ' (l.drop 2) = [l.drop 2]) :
    parseBudgetLine fid l = none := by
  unfold parseBudgetLine
  by_cases hs : startsWithL "- ".data l = true
  · rw [if_pos hs, h]
  · rw [if_neg hs]

/-- A `- Label: value` line of an encoded Budget block never matches the
five-group query regex: its body splits into a single `' - '` part. -/
theorem budgetFieldLine_none (fid : String) (label : String) (v : List Char)
    (hlab : label.data.all (fun c => !(c = '-')) = true)
    (hv : containsL [' ', '-', ' '] v = false)
    (hv2 : startsWithL ['-', ' '] v = false) :
    parseBudgetLine fid (("- " ++ label).data ++ v) = none := by
  apply parseBudgetLine_none_single
  rw [show (("- " ++ label).data ++ v).drop 2 = label.data ++ v from by
    rw [String.data_append]
    rfl]
  exact split3_no_sep _ _ _ _ (containsL3_label label.data v hlab hv hv2)

/-- The per-record cleanliness needed so that an encoded Budget block keeps
looking like an encoded block to the line scanner. -/
def budgetFieldsClean (b : Budget) : Prop :=
  cleanB b.category ∧ cleanB b.period ∧ cleanB (b.description.getD "") ∧
    cleanB b.currency ∧ cleanB b.id

instance (b : Budget) : Decidable (budgetFieldsClean b) := by
  unfold budgetFieldsClean
  infer_instance

/-- Scanning the lines of one encoded Budget block yields nothing: none of
its nine lines matches the five-group `' - '` query regex. -/
theorem scanBudget_block (idGen : Nat → String) (b : Budget)
    (tail : List Char) (k : Nat) (h : budgetFieldsClean b) :
    scanBudgetLines idGen (split1 '\n' ((formatBudget b).data ++ tail)) k =
      scanBudgetLines idGen (split1 '\n' tail) (k + 9) := by
  obtain ⟨hc, hp, hd, hcu, hi⟩ := h
  unfold formatBudget formatBudgetLines
  rw [split1_peel _ _ _ (line_no_nl "## Budget " b.id (by decide) hi.1)
        (by simp),
      split1_peel _ _ _ (by decide) (by simp),
      split1_peel _ _ _ (line_no_nl "- Amount: " (intToString b.amount)
        (by decide) (intToString_no_nl b.amount)) (by simp),
      split1_peel _ _ _ (line_no_nl "- Category: " b.category (by decide)
        hc.1) (by simp),
      split1_peel _ _ _ (line_no_nl "- Period: " b.period (by decide) hp.1)
        (by simp),
      split1_peel _ _ _ (line_no_nl "- Description: " (b.description.getD "")
        (by decide) hd.1) (by simp),
      split1_peel _ _ _ (line_no_nl "- Currency: " b.currency (by decide)
        hcu.1) (by simp),
      split1_peel _ _ _ (line_no_nl "- ID: " b.id (by decide) hi.1)
        (by simp),
      split1_peel _ _ _ (by decide) (by simp)]
  rw [show ((joinNl [""]).data ++ tail) = tail from rfl]
  rw [scanBudgetLines_skip idGen ("## Budget " ++ b.id).data _ _ rfl]
  rw [show ("" : String).data = ([] : List Char) from rfl]
  rw [scanBudgetLines_skip idGen [] _ _ rfl]
  rw [show ("- Amount: " ++ intToString b.amount).data =
        ("- " ++ "Amount: ").data ++ (intToString b.amount).data from rfl,
      scanBudgetLines_none idGen
        (("- " ++ "Amount: ").data ++ (intToString b.amount).data) _ _
        (budgetFieldLine_none _ "Amount: " _ (by decide)
          (printInt_no_sds b.amount) (printInt_not_dash_start b.amount))]
  rw [show ("- Category: " ++ b.category).data =
        ("- " ++ "Category: ").data ++ b.category.data from rfl,
      scanBudgetLines_none idGen
        (("- " ++ "Category: ").data ++ b.category.data) _ _
        (budgetFieldLine_none _ "Category: " _ (by decide) hc.2.1 hc.2.2)]
  rw [show ("- Period: " ++ b.period).data =
        ("- " ++ "Period: ").data ++ b.period.data from rfl,
      scanBudgetLines_none idGen
        (("- " ++ "Period: ").data ++ b.period.data) _ _
        (budgetFieldLine_none _ "Period: " _ (by decide) hp.2.1 hp.2.2)]
  rw [show ("- Description: " ++ (b.description.getD "")).data =
        ("- " ++ "Description: ").data ++ (b.description.getD "").data from rfl,
      scanBudgetLines_none idGen
        (("- " ++ "Description: ").data ++ (b.description.getD "").data) _ _
        (budgetFieldLine_none _ "Description: " _ (by decide) hd.2.1 hd.2.2)]
  rw [show ("- Currency: " ++ b.currency).data =
        ("- " ++ "Currency: ").data ++ b.currency.data from rfl,
      scanBudgetLines_none idGen
        (("- " ++ "Currency: ").data ++ b.currency.data) _ _
        (budgetFieldLine_none _ "Currency: " _ (by decide) hcu.2.1 hcu.2.2)]
  rw [show ("- ID: " ++ b.id).data =
        ("- " ++ "ID: ").data ++ b.id.data from rfl,
      scanBudgetLines_none idGen (("- " ++ "ID: ").data ++ b.id.data) _ _
        (budgetFieldLine_none _ "ID: " _ (by decide) hi.2.1 hi.2.2)]
  rw [scanBudgetLines_skip idGen [] _ _ rfl]

/-- The document text the Budget encoder produces after writing `bs` in
order (title header then one block per record). -/
def budgetBlocksData : List Budget → List Char
  | [] => []
  | b :: rest => (formatBudget b).data ++ budgetBlocksData rest

def budgetDocFor (y : Nat) (bs : List Budget) : String :=
  ⟨(getInitialBudgetContent y).data ++ budgetBlocksData bs⟩

theorem scanBudget_blocks (idGen : Nat → String) (bs : List Budget) (k : Nat)
    (h : ∀ b ∈ bs, budgetFieldsClean b) :
    scanBudgetLines idGen (split1 '\n' (budgetBlocksData bs)) k = [] := by
  induction bs generalizing k with
  | nil =>
    rw [show budgetBlocksData [] = [] from rfl]
    rw [show split1 '\n' [] = [[]] from rfl,
      scanBudgetLines_skip idGen [] _ _ rfl]
    rfl
  | cons b rest ih =>
    rw [show budgetBlocksData (b :: rest) =
        (formatBudget b).data ++ budgetBlocksData rest from rfl,
      scanBudget_block idGen b _ k (h b (by simp))]
    exact ih (k + 9) (fun x hx => h x (by simp [hx]))

theorem split1_initialBudget (y : Nat) (tail : List Char) :
    split1 '\n' ((getInitialBudgetContent y).data ++ tail) =
      ("# ".data ++ printNat y ++ " Budgets".data) :: [] ::
        split1 '\n' tail := by
  have e : (getInitialBudgetContent y).data ++ tail =
      ("# ".data ++ printNat y ++ " Budgets".data) ++
        '\n' :: '\n' :: tail := by
    simp only [getInitialBudgetContent, natToString, String.data_append,
      List.append_assoc]
    rfl
  rw [e, split1_sep_append _ _ _ (by
    simp only [List.all_append, Bool.and_eq_true]
    refine ⟨⟨by decide, ?_⟩, by decide⟩
    exact all_of_all_digits (printNat_all_digits y) _
      (fun c hc => by simp [(isDigit_char_facts c hc).1]))]
  rw [show split1 '\n' ('\n' :: tail) = [] :: split1 '\n' tail from by
    simp [split1]]

theorem scanRecLines_skip (idGen : Nat → String) (l : List Char)
    (rest : List (List Char)) (k : Nat)
    (h : startsWithL "- ".data l = false) :
    scanRecLines idGen (l :: rest) k = scanRecLines idGen rest (k + 1) := by
  simp [scanRecLines, h]

theorem scanRecLines_none (idGen : Nat → String) (l : List Char)
    (rest : List (List Char)) (k : Nat)
    (h : parseRecurringTransactionLine (idGen k) l = none) :
    scanRecLines idGen (l :: rest) k = scanRecLines idGen rest (k + 1) := by
  by_cases hs : startsWithL "- ".data l = true
  · simp [scanRecLines, hs, h]
  · simp [scanRecLines, Bool.of_not_eq_true hs]

theorem parseRecLine_none_single (fid : String) (l : List Char)
    (h : split3 ' ' '-' ' ' (l.drop 2) = [l.drop 2]) :
    parseRecurringTransactionLine fid l = none := by
  unfold parseRecurringTransactionLine
  by_cases hs : startsWithL "- ".data l = true
  · rw [if_pos hs, h]
  · rw [if_neg hs]

theorem recFieldLine_none (fid : String) (label : String) (v : List Char)
    (hlab : label.data.all (fun c => !(c = '-')) = true)
    (hv : containsL [' ', '-', ' '] v = false)
    (hv2 : startsWithL ['-', ' '] v = false) :
    parseRecurringTransactionLine fid (("- " ++ label).data ++ v) = none := by
  apply parseRecLine_none_single
  rw [show (("- " ++ label).data ++ v).drop 2 = label.data ++ v from by
    rw [String.data_append]
    rfl]
  exact split3_no_sep _ _ _ _ (containsL3_label label.data v hlab hv hv2)

def recFieldsClean (r : RecurringTransaction) : Prop :=
  cleanB r.type_ ∧ cleanB r.category ∧ cleanB r.account ∧
    cleanB (jsTemplateStr r.description) ∧ cleanB r.frequency ∧
    cleanB r.currency ∧ cleanB r.id

instance (r : RecurringTransaction) : Decidable (recFieldsClean r) := by
  unfold recFieldsClean
  infer_instance

/-- Scanning the lines of one encoded Recurring Transaction block yields
nothing: none of its thirteen lines matches the eight-group query regex. -/
theorem scanRec_block (idGen : Nat → String) (r : RecurringTransaction)
    (tail : List Char) (k : Nat) (h : recFieldsClean r) :
    scanRecLines idGen
        (split1 '\n' ((formatRecurringTransaction r).data ++ tail)) k =
      scanRecLines idGen (split1 '\n' tail) (k + 13) := by
  obtain ⟨ht, hc, ha, hd, hf, hcu, hi⟩ := h
  unfold formatRecurringTransaction formatRecurringTransactionLines
  set edS : String := (match r.endDate with
    | some d => formatSDate d
    | none => "") with hedS
  have hedNl : edS.data.all (fun c => !(c = '\n')) = true := by
    rw [hedS]
    cases r.endDate with
    | none => decide
    | some d => exact formatSDate_no_nl d
  have hedSds : containsL [' ', '-', ' '] edS.data = false := by
    rw [hedS]
    cases r.endDate with
    | none => rfl
    | some d => exact formatSDate_no_sds d
  have hedDash : startsWithL ['-', ' '] edS.data = false := by
    rw [hedS]
    cases r.endDate with
    | none => rfl
    | some d => exact formatSDate_not_dash_start d
  rw [split1_peel _ _ _ (line_no_nl "## Recurring Transaction " r.id
        (by decide) hi.1) (by simp),
      split1_peel _ _ _ (by decide) (by simp),
      split1_peel _ _ _ (line_no_nl "- Amount: " (intToString r.amount)
        (by decide) (intToString_no_nl r.amount)) (by simp),
      split1_peel _ _ _ (line_no_nl "- Type: " r.type_ (by decide) ht.1)
        (by simp),
      split1_peel _ _ _ (line_no_nl "- Category: " r.category (by decide)
        hc.1) (by simp),
      split1_peel _ _ _ (line_no_nl "- Account: " r.account (by decide)
        ha.1) (by simp),
      split1_peel _ _ _ (line_no_nl "- Description: "
        (jsTemplateStr r.description) (by decide) hd.1) (by simp),
      split1_peel _ _ _ (line_no_nl "- Frequency: " r.frequency (by decide)
        hf.1) (by simp),
      split1_peel _ _ _ (line_no_nl "- Start Date: " (formatSDate r.startDate)
        (by decide) (formatSDate_no_nl r.startDate)) (by simp),
      split1_peel _ _ _ (line_no_nl "- End Date: " _ (by decide) hedNl)
        (by simp),
      split1_peel _ _ _ (line_no_nl "- Currency: " r.currency (by decide)
        hcu.1) (by simp),
      split1_peel _ _ _ (line_no_nl "- ID: " r.id (by decide) hi.1)
        (by simp),
      split1_peel _ _ _ (by decide) (by simp)]
  rw [show ((joinNl [""]).data ++ tail) = tail from rfl]
  rw [scanRecLines_skip idGen ("## Recurring Transaction " ++ r.id).data _ _
    rfl]
  rw [show ("" : String).data = ([] : List Char) from rfl]
  rw [scanRecLines_skip idGen [] _ _ rfl]
  rw [show ("- Amount: " ++ intToString r.amount).data =
        ("- " ++ "Amount: ").data ++ (intToString r.amount).data from rfl,
      scanRecLines_none idGen
        (("- " ++ "Amount: ").data ++ (intToString r.amount).data) _ _
        (recFieldLine_none _ "Amount: " _ (by decide)
          (printInt_no_sds r.amount) (printInt_not_dash_start r.amount))]
  rw [show ("- Type: " ++ r.type_).data =
        ("- " ++ "Type: ").data ++ r.type_.data from rfl,
      scanRecLines_none idGen (("- " ++ "Type: ").data ++ r.type_.data) _ _
        (recFieldLine_none _ "Type: " _ (by decide) ht.2.1 ht.2.2)]
  rw [show ("- Category: " ++ r.category).data =
        ("- " ++ "Category: ").data ++ r.category.data from rfl,
      scanRecLines_none idGen
        (("- " ++ "Category: ").data ++ r.category.data) _ _
        (recFieldLine_none _ "Category: " _ (by decide) hc.2.1 hc.2.2)]
  rw [show ("- Account: " ++ r.account).data =
        ("- " ++ "Account: ").data ++ r.account.data from rfl,
      scanRecLines_none idGen (("- " ++ "Account: ").data ++ r.account.data)
        _ _ (recFieldLine_none _ "Account: " _ (by decide) ha.2.1 ha.2.2)]
  rw [show ("- Description: " ++ jsTemplateStr r.description).data =
        ("- " ++ "Description: ").data ++ (jsTemplateStr r.description).data
        from rfl,
      scanRecLines_none idGen (("- " ++ "Description: ").data ++
        (jsTemplateStr r.description).data) _ _
        (recFieldLine_none _ "Description: " _ (by decide) hd.2.1 hd.2.2)]
  rw [show ("- Frequency: " ++ r.frequency).data =
        ("- " ++ "Frequency: ").data ++ r.frequency.data from rfl,
      scanRecLines_none idGen
        (("- " ++ "Frequency: ").data ++ r.frequency.data) _ _
        (recFieldLine_none _ "Frequency: " _ (by decide) hf.2.1 hf.2.2)]
  rw [show ("- Start Date: " ++ formatSDate r.startDate).data =
        ("- " ++ "Start Date: ").data ++ (formatSDate r.startDate).data
        from rfl,
      scanRecLines_none idGen (("- " ++ "Start Date: ").data ++
        (formatSDate r.startDate).data) _ _
        (recFieldLine_none _ "Start Date: " _ (by decide)
          (formatSDate_no_sds r.startDate)
          (formatSDate_not_dash_start r.startDate))]
  rw [show ("- End Date: " ++ edS).data =
        ("- " ++ "End Date: ").data ++ edS.data from rfl,
      scanRecLines_none idGen (("- " ++ "End Date: ").data ++ edS.data) _ _
        (recFieldLine_none _ "End Date: " _ (by decide) hedSds hedDash)]
  rw [show ("- Currency: " ++ r.currency).data =
        ("- " ++ "Currency: ").data ++ r.currency.data from rfl,
      scanRecLines_none idGen
        (("- " ++ "Currency: ").data ++ r.currency.data) _ _
        (recFieldLine_none _ "Currency: " _ (by decide) hcu.2.1 hcu.2.2)]
  rw [show ("- ID: " ++ r.id).data =
        ("- " ++ "ID: ").data ++ r.id.data from rfl,
      scanRecLines_none idGen (("- " ++ "ID: ").data ++ r.id.data) _ _
        (recFieldLine_none _ "ID: " _ (by decide) hi.2.1 hi.2.2)]
  rw [scanRecLines_skip idGen [] _ _ rfl]

def recBlocksData : List RecurringTransaction → List Char
  | [] => []
  | r :: rest => (formatRecurringTransaction r).data ++ recBlocksData rest

def recDocFor (y : Nat) (rs : List RecurringTransaction) : String :=
  ⟨(getInitialRecContent y).data ++ recBlocksData rs⟩

theorem scanRec_blocks (idGen : Nat → String)
    (rs : List RecurringTransaction) (k : Nat)
    (h : ∀ r ∈ rs, recFieldsClean r) :
    scanRecLines idGen (split1 '\n' (recBlocksData rs)) k = [] := by
  induction rs generalizing k with
  | nil =>
    rw [show recBlocksData [] = [] from rfl,
      show split1 '\n' [] = [[]] from rfl,
      scanRecLines_skip idGen [] _ _ rfl]
    rfl
  | cons r rest ih =>
    rw [show recBlocksData (r :: rest) =
        (formatRecurringTransaction r).data ++ recBlocksData rest from rfl,
      scanRec_block idGen r _ k (h r (by simp))]
    exact ih (k + 13) (fun x hx => h x (by simp [hx]))

theorem split1_initialRec (y : Nat) (tail : List Char) :
    split1 '\n' ((getInitialRecContent y).data ++ tail) =
      ("# ".data ++ printNat y ++ " Recurring Transactions".data) :: [] ::
        split1 '\n' tail := by
  have e : (getInitialRecContent y).data ++ tail =
      ("# ".data ++ printNat y ++ " Recurring Transactions".data) ++
        '\n' :: '\n' :: tail := by
    simp only [getInitialRecContent, natToString, String.data_append,
      List.append_assoc]
    rfl
  rw [e, split1_sep_append _ _ _ (by
    simp only [List.all_append, Bool.and_eq_true]
    refine ⟨⟨by decide, ?_⟩, by decide⟩
    exact all_of_all_digits (printNat_all_digits y) _
      (fun c hc => by simp [(isDigit_char_facts c hc).1]))]
  rw [show split1 '\n' ('\n' :: tail) = [] :: split1 '\n' tail from by
    simp [split1]]

/-- C4 (amended): with no filter, the Transaction repository returns exactly
its cached records — the decode of the current-year document after the
first-use load.  The Budget and Recurring repositories instead re-read the
requested year's document and scan it with a `' - '`-separated line format
their encoders never write, so NONE of the records they persisted come back
(the result is empty for every encoder-written document whose field values
are clean). -/
theorem claim_C4_query_vs_store (cy y : Nat) (s : Store)
    (cache : List TxP) (c : String) (dateStr : JsDate → String)
    (stB : BState) (bs : List Budget) (idGenB : Nat → String)
    (stR : RState) (rs : List RecurringTransaction) (idGenR : Nat → String)
    (hc : s.txDocs cy = some c)
    (hb : s.budgetDocs y = some (budgetDocFor y bs))
    (hbc : ∀ b ∈ bs, budgetFieldsClean b)
    (hbi : stB.initialized = true)
    (hbcy : (s.budgetDocs cy).isSome = true)
    (hr : s.recDocs y = some (recDocFor y rs))
    (hrc : ∀ r ∈ rs, recFieldsClean r)
    (hy : y ≠ 0) :
    (getTransactions cy s ⟨cache, true⟩ none dateStr).result = .ok cache ∧
      (getTransactions cy s ⟨[], false⟩ none dateStr).result =
        .ok (parseTransactionsFromContent c) ∧
      (getBudgets cy s stB (some y) idGenB).result = .ok [] ∧
      (getRecurringTransactions cy s stR (some y) idGenR).result =
        .ok [] := by
  refine ⟨?_, ?_, ?_, ?_⟩
  · simp [getTransactions, initTxService]
  · simp [getTransactions, initTxService, loadTransactions,
      getOrCreateTxFile, hc]
  · obtain ⟨cc, hcc⟩ := Option.isSome_iff_exists.mp hbcy
    have hscan : scanBudgetLines idGenB (linesOf (budgetDocFor y bs)) 0 = [] := by
      unfold linesOf budgetDocFor
      rw [show (⟨(getInitialBudgetContent y).data ++ budgetBlocksData bs⟩ :
          String).data = (getInitialBudgetContent y).data ++
          budgetBlocksData bs from rfl,
        split1_initialBudget,
        scanBudgetLines_skip idGenB
          ("# ".data ++ printNat y ++ " Budgets".data) _ _ rfl,
        scanBudgetLines_skip idGenB [] _ _ rfl]
      exact scanBudget_blocks idGenB bs 2 hbc
    simp [getBudgets, initBudgetService, hcc, hbi, jsYearOr, hy,
      getOrCreateBudgetFile, hb, hscan]
  · have hscan : scanRecLines idGenR (linesOf (recDocFor y rs)) 0 = [] := by
      unfold linesOf recDocFor
      rw [show (⟨(getInitialRecContent y).data ++ recBlocksData rs⟩ :
          String).data = (getInitialRecContent y).data ++
          recBlocksData rs from rfl,
        split1_initialRec,
        scanRecLines_skip idGenR
          ("# ".data ++ printNat y ++ " Recurring Transactions".data) _ _
          rfl,
        scanRecLines_skip idGenR [] _ _ rfl]
      exact scanRec_blocks idGenR rs 2 hrc
    simp [getRecurringTransactions, jsYearOr, hy, getOrCreateRecFile, hr,
      hscan]

instance {ε α : Type} [DecidableEq ε] [DecidableEq α] :
    DecidableEq (Except ε α) := fun x y =>
  match x, y with
  | .ok a, .ok b =>
    if h : a = b then isTrue (by rw [h])
    else isFalse (fun he => h (by cases he; rfl))
  | .error a, .error b =>
    if h : a = b then isTrue (by rw [h])
    else isFalse (fun he => h (by cases he; rfl))
  | .ok _, .error _ => isFalse (fun he => by cases he)
  | .error _, .ok _ => isFalse (fun he => by cases he)

def c4b : Budget :=
  mkBudget ⟨500, "food", "monthly", some "d", none, "CNY"⟩ "bid7"

def c4r : RecurringTransaction := mkRecurring c5ri "rid7"

def c4store : Store :=
  ⟨fun yy => if yy = 2024 then some "# 2024 Transactions\n\n" else none,
    fun yy => if yy = 2024 then some (budgetDocFor 2024 [c4b]) else none,
    fun yy => if yy = 2024 then some (recDocFor 2024 [c4r]) else none⟩

/-- C4 counterexample: the year-2024 budget document stores exactly one
encoder-written record (the block codec decodes it), yet the no-filter
`getBudgets` query returns the empty list — the persisted record, id and
all, is absent from the query result. -/
theorem claim_C4_counterexample :
    parseBudgetsFromContent (budgetDocFor 2024 [c4b]) = [c4b.toParsed] ∧
      (getBudgets 2024 c4store ⟨[], true⟩ (some 2024) natToString).result =
        .ok [] := by
  decide

/-- C4 witness: the amended statement on a concrete store. -/
theorem claim_C4_query_vs_store_witness :
    c4store.budgetDocs 2024 = some (budgetDocFor 2024 [c4b]) ∧
      (getTransactions 2024 c4store ⟨[], false⟩ none (fun _ => "")).result =
        .ok (parseTransactionsFromContent "# 2024 Transactions\n\n") ∧
      (getRecurringTransactions 2024 c4store ⟨[]⟩ (some 2024)
        natToString).result = .ok [] :=
  ⟨rfl,
    (claim_C4_query_vs_store 2024 2024 c4store [] "# 2024 Transactions\n\n"
      (fun _ => "") ⟨[], true⟩ [c4b] natToString ⟨[]⟩ [c4r] natToString rfl
      rfl (by decide) rfl (by decide) rfl (by decide) (by decide)).2.1,
    (claim_C4_query_vs_store 2024 2024 c4store [] "# 2024 Transactions\n\n"
      (fun _ => "") ⟨[], true⟩ [c4b] natToString ⟨[]⟩ [c4r] natToString rfl
      rfl (by decide) rfl (by decide) rfl (by decide) (by decide)).2.2.2⟩

/-! ### C6: summary conservation -/

/-- The keys (currencies) of the currency-group accumulator, in insertion
order. -/
def groupKeys (acc : List (Option String × List TxP)) : List (Option String) :=
  acc.map Prod.fst

theorem addToGroup_keys (acc : List (Option String × List TxP)) (t : TxP) :
    groupKeys (addToGroup acc t) =
      if currencyKey t ∈ groupKeys acc then groupKeys acc
      else groupKeys acc ++ [currencyKey t] := by
  induction acc with
  | nil => rfl
  | cons q rest ih =>
    obtain ⟨c, g⟩ := q
    by_cases h : currencyKey t = c
    · have e : addToGroup ((c, g) :: rest) t = (c, g ++ [t]) :: rest := by
        simp [addToGroup, h]
      rw [e, if_pos (by simp [groupKeys, h])]
      rfl
    · have e : addToGroup ((c, g) :: rest) t = (c, g) :: addToGroup rest t := by
        simp [addToGroup, h]
      rw [e]
      have e2 : groupKeys ((c, g) :: addToGroup rest t) =
          c :: groupKeys (addToGroup rest t) := rfl
      rw [e2, ih]
      have e3 : groupKeys ((c, g) :: rest) = c :: groupKeys rest := rfl
      rw [e3]
      by_cases hm : currencyKey t ∈ groupKeys rest
      · rw [if_pos hm, if_pos (show currencyKey t ∈ c :: groupKeys rest from
          List.mem_cons_of_mem _ hm)]
      · rw [if_neg hm, if_neg (show ¬currencyKey t ∈ c :: groupKeys rest by
          intro hk
          rcases List.mem_cons.mp hk with hk1 | hk2
          · exact h hk1
          · exact hm hk2)]
        rw [List.cons_append]

theorem addToGroup_lensum (acc : List (Option String × List TxP)) (t : TxP) :
    ((addToGroup acc t).map (fun p => p.2.length)).sum =
      (acc.map (fun p => p.2.length)).sum + 1 := by
  induction acc with
  | nil => rfl
  | cons q rest ih =>
    obtain ⟨c, g⟩ := q
    by_cases h : currencyKey t = c
    · simp [addToGroup, h]
      omega
    · simp [addToGroup, h, ih]
      omega

/-- Each entry of `addToGroup acc t` is either an untouched entry of `acc`
with a key other than `t`'s, or the entry of `t`'s key with `t` appended
(to its previous group, or to a fresh empty group when the key was new). -/
theorem addToGroup_mem (t : TxP) :
    ∀ acc : List (Option String × List TxP), (groupKeys acc).Nodup →
      ∀ p ∈ addToGroup acc t,
        (p ∈ acc ∧ p.1 ≠ currencyKey t) ∨
          (∃ g0, p = (currencyKey t, g0 ++ [t]) ∧
            ((currencyKey t, g0) ∈ acc ∨
              (g0 = [] ∧ currencyKey t ∉ groupKeys acc))) := by
  intro acc
  induction acc with
  | nil =>
    intro _ p hp
    have e : addToGroup [] t = [(currencyKey t, [t])] := rfl
    rw [e] at hp
    have hp2 : p = (currencyKey t, [t]) := List.mem_singleton.mp hp
    subst hp2
    exact .inr ⟨[], rfl, .inr ⟨rfl, by simp [groupKeys]⟩⟩
  | cons q rest ih =>
    obtain ⟨c, g⟩ := q
    intro hN p hp
    have hN2 : (c :: groupKeys rest).Nodup := hN
    obtain ⟨hcnotin, hNrest⟩ := List.nodup_cons.mp hN2
    by_cases h : currencyKey t = c
    · have e : addToGroup ((c, g) :: rest) t = (c, g ++ [t]) :: rest := by
        simp [addToGroup, h]
      rw [e] at hp
      rcases List.mem_cons.mp hp with he | hmem
      · subst he
        exact .inr ⟨g, by rw [h], .inl (by rw [h]; exact List.mem_cons_self _ _)⟩
      · left
        refine ⟨List.mem_cons_of_mem _ hmem, ?_⟩
        intro he
        apply hcnotin
        have hmk : p.1 ∈ groupKeys rest := List.mem_map_of_mem Prod.fst hmem
        rwa [he, h] at hmk
    · have e : addToGroup ((c, g) :: rest) t = (c, g) :: addToGroup rest t := by
        simp [addToGroup, h]
      rw [e] at hp
      rcases List.mem_cons.mp hp with he | hmem
      · subst he
        exact .inl ⟨List.mem_cons_self _ _, fun he2 => h he2.symm⟩
      · rcases ih hNrest p hmem with ⟨hm, hne⟩ | ⟨g0, hp0, hcase⟩
        · exact .inl ⟨List.mem_cons_of_mem _ hm, hne⟩
        · refine .inr ⟨g0, hp0, ?_⟩
          rcases hcase with hmem0 | ⟨hg0, hnk⟩
          · exact .inl (List.mem_cons_of_mem _ hmem0)
          · refine .inr ⟨hg0, ?_⟩
            intro hk
            have hk2 : currencyKey t ∈ c :: groupKeys rest := hk
            rcases List.mem_cons.mp hk2 with hk1 | hk3
            · exact h hk1
            · exact hnk hk3

/-- Folding transactions into the groups adds exactly one unit of group
length per transaction. -/
theorem foldl_groups_lensum (txs : List TxP) :
    ∀ acc, (((txs.foldl addToGroup acc).map (fun p => p.2.length)).sum) =
      (acc.map (fun p => p.2.length)).sum + txs.length := by
  induction txs with
  | nil => intro acc; simp
  | cons t ts ih =>
    intro acc
    have e : (t :: ts).foldl addToGroup acc =
        ts.foldl addToGroup (addToGroup acc t) := rfl
    rw [e, ih, addToGroup_lensum]
    simp
    omega

/-- Fold invariant of the currency grouping: every group holds exactly the
already-processed transactions of its key, the keys stay distinct, and
every processed transaction's key has a group. -/
theorem currencyGroups_invariant (txs : List TxP) :
    ∀ (proc : List TxP) (acc : List (Option String × List TxP)),
      (∀ p ∈ acc, p.2 = proc.filter (fun x => currencyKey x == p.1)) →
      (groupKeys acc).Nodup →
      (∀ x ∈ proc, currencyKey x ∈ groupKeys acc) →
      (∀ p ∈ txs.foldl addToGroup acc,
          p.2 = (proc ++ txs).filter (fun x => currencyKey x == p.1)) ∧
        (groupKeys (txs.foldl addToGroup acc)).Nodup ∧
        (∀ x ∈ proc ++ txs,
          currencyKey x ∈ groupKeys (txs.foldl addToGroup acc)) := by
  induction txs with
  | nil =>
    intro proc acc h1 h2 h3
    rw [List.append_nil]
    exact ⟨h1, h2, h3⟩
  | cons t ts ih =>
    intro proc acc h1 h2 h3
    have hfold : (t :: ts).foldl addToGroup acc =
        ts.foldl addToGroup (addToGroup acc t) := rfl
    rw [hfold]
    have key1 : ∀ p ∈ addToGroup acc t,
        p.2 = (proc ++ [t]).filter (fun x => currencyKey x == p.1) := by
      intro p hp
      rcases addToGroup_mem t acc h2 p hp with ⟨hm, hne⟩ | ⟨g0, hpe, hcase⟩
      · have hf : (currencyKey t == p.1) = false :=
          beq_eq_false_iff_ne.mpr (fun he => hne he.symm)
        rw [h1 p hm, List.filter_append]
        simp [List.filter_cons, hf]
      · subst hpe
        rcases hcase with hmem0 | ⟨hg0, hnk⟩
        · have hg : g0 = proc.filter
              (fun x => currencyKey x == currencyKey t) := h1 _ hmem0
          show g0 ++ [t] = (proc ++ [t]).filter
            (fun x => currencyKey x == currencyKey t)
          rw [List.filter_append, ← hg]
          simp [List.filter_cons]
        · have hpf : proc.filter
              (fun x => currencyKey x == currencyKey t) = [] := by
            rw [List.filter_eq_nil_iff]
            intro x hx hbeq
            exact hnk (eq_of_beq hbeq ▸ h3 x hx)
          subst hg0
          show [] ++ [t] = (proc ++ [t]).filter
            (fun x => currencyKey x == currencyKey t)
          rw [List.filter_append, hpf]
          simp [List.filter_cons]
    have key2 : (groupKeys (addToGroup acc t)).Nodup := by
      rw [addToGroup_keys]
      by_cases hm : currencyKey t ∈ groupKeys acc
      · rw [if_pos hm]; exact h2
      · rw [if_neg hm]
        simp [List.nodup_append, h2, hm]
    have key3 : ∀ x ∈ proc ++ [t],
        currencyKey x ∈ groupKeys (addToGroup acc t) := by
      have hsup : ∀ k, k ∈ groupKeys acc →
          k ∈ groupKeys (addToGroup acc t) := by
        intro k hk
        rw [addToGroup_keys]
        by_cases hm : currencyKey t ∈ groupKeys acc
        · rw [if_pos hm]; exact hk
        · rw [if_neg hm]; exact List.mem_append_left _ hk
      intro x hx
      rcases List.mem_append.mp hx with hx1 | hx2
      · exact hsup _ (h3 x hx1)
      · have hxt : x = t := List.mem_singleton.mp hx2
        subst hxt
        rw [addToGroup_keys]
        by_cases hm : currencyKey x ∈ groupKeys acc
        · rw [if_pos hm]; exact hm
        · rw [if_neg hm]
          exact List.mem_append_right _ (List.mem_singleton.mpr rfl)
    have hmain := ih (proc ++ [t]) (addToGroup acc t) key1 key2 key3
    rwa [List.append_assoc, List.singleton_append] at hmain

/-- C6: in every currency summary generated for a period, the transaction
list is exactly the period transactions of that summary's currency,
`totalIncome`/`totalExpense` are the (NaN-propagating) sums over the
income- and expense-typed transactions of that partition, `netAmount` is their
difference, and the partition sizes add up to the period's total
transaction count. -/
theorem claim_C6_summary_conservation (cache : List TxP) (start stop : SDate) :
    (∀ cs ∈ generateSummaryCore (periodTxs cache start stop),
        cs.transactions = (periodTxs cache start stop).filter
            (fun x => currencyKey x == cs.currency) ∧
          cs.totalIncome = sumAmounts (cs.transactions.filter isIncomeTx) ∧
          cs.totalExpense = sumAmounts (cs.transactions.filter isExpenseTx) ∧
          cs.netAmount = jsSub cs.totalIncome cs.totalExpense) ∧
      ((generateSummaryCore (periodTxs cache start stop)).map
          (fun cs => cs.transactions.length)).sum =
        (periodTxs cache start stop).length := by
  obtain ⟨h1, _h2, _h3⟩ := currencyGroups_invariant
    (periodTxs cache start stop) [] [] (by intro p hp; cases hp)
    List.nodup_nil (by intro x hx; cases hx)
  constructor
  · intro cs hcs
    simp only [generateSummaryCore, List.mem_map] at hcs
    obtain ⟨cg, hcg, he⟩ := hcs
    subst he
    have hg := h1 cg hcg
    rw [List.nil_append] at hg
    exact ⟨hg, rfl, rfl, rfl⟩
  · have hmapeq : (generateSummaryCore (periodTxs cache start stop)).map
        (fun cs => cs.transactions.length) =
        (currencyGroups (periodTxs cache start stop)).map
          (fun cg => cg.2.length) := by
      simp only [generateSummaryCore, List.map_map]
      rfl
    rw [hmapeq]
    have := foldl_groups_lensum (periodTxs cache start stop) []
    simpa [currencyGroups] using this

def c6t1 : TxP :=
  { TxP.empty with
      date := some (some ⟨2024, 3, 5⟩)
      amount := some (some 5000)
      type_ := some (some "income")
      currency := some (some "CNY") }

def c6t2 : TxP :=
  { TxP.empty with
      date := some (some ⟨2024, 3, 10⟩)
      amount := some (some 2000)
      type_ := some (some "expense")
      currency := some (some "CNY") }

def c6cache : List TxP := [c6t1, c6t2]

def c6sum : CurrencySummary :=
  ⟨some "CNY", some 5000, some 2000, some 3000, [c6t1, c6t2]⟩

/-- C6 witness: a March-2024 period with one CNY income of 5000 and one
CNY expense of 2000 yields the single CNY summary with net 3000 and both
transactions counted once. -/
theorem claim_C6_summary_conservation_witness :
    (c6sum.transactions =
        (periodTxs c6cache ⟨2024, 3, 1⟩ ⟨2024, 3, 31⟩).filter
          (fun x => currencyKey x == c6sum.currency) ∧
      c6sum.totalIncome = sumAmounts (c6sum.transactions.filter isIncomeTx) ∧
      c6sum.totalExpense =
        sumAmounts (c6sum.transactions.filter isExpenseTx) ∧
      c6sum.netAmount = jsSub c6sum.totalIncome c6sum.totalExpense) ∧
    ((generateSummaryCore (periodTxs c6cache ⟨2024, 3, 1⟩ ⟨2024, 3, 31⟩)).map
        (fun cs => cs.transactions.length)).sum =
      (periodTxs c6cache ⟨2024, 3, 1⟩ ⟨2024, 3, 31⟩).length :=
  ⟨(claim_C6_summary_conservation c6cache ⟨2024, 3, 1⟩ ⟨2024, 3, 31⟩).1 c6sum
      (by decide),
    (claim_C6_summary_conservation c6cache ⟨2024, 3, 1⟩ ⟨2024, 3, 31⟩).2⟩

/-! ### C7: the query sort -/

/-- The rendered string of a record's sort-key field, as the character
list the comparator's lexicographic `<` runs on. -/
def keyStr (dateStr : JsDate → String) (sd : SortDesc) (t : TxP) :
    List Char :=
  (fieldString dateStr t sd.field).data

/-- "`a` strictly precedes `b` on this key, in the key's direction"
(asc: `a`'s rendered string is lexicographically smaller; desc: larger). -/
def keyLt (dateStr : JsDate → String) (sd : SortDesc) (a b : TxP) : Prop :=
  match sd.direction with
  | .asc => keyStr dateStr sd a < keyStr dateStr sd b
  | .desc => keyStr dateStr sd b < keyStr dateStr sd a

/-- Three-way lexicographic comparison of two rendered strings. -/
def strCmp3 (a b : String) : Int :=
  if a.data < b.data then -1 else if b.data < a.data then 1 else 0

/-- Applying a sort direction to a three-way comparison result. -/
def dirFlip : Dir → Int → Int
  | .asc, c => c
  | .desc, c => -c

/-- The spec's words for the comparator: walk the sort keys in list order,
compare each key's rendered strings lexicographically three-way with the
direction applied as a sign flip, break ties by the next key, return 0
when every key ties. -/
def specSortCmp (dateStr : JsDate → String) :
    List SortDesc → TxP → TxP → Int
  | [], _, _ => 0
  | sd :: rest, a, b =>
    let c := strCmp3 (fieldString dateStr a sd.field)
      (fieldString dateStr b sd.field)
    if c = 0 then specSortCmp dateStr rest a b else dirFlip sd.direction c

theorem jsSortCmp_cons (dateStr : JsDate → String) (sd : SortDesc)
    (rest : List SortDesc) (a b : TxP) :
    jsSortCmp dateStr (sd :: rest) a b =
      if fieldString dateStr a sd.field = fieldString dateStr b sd.field
      then jsSortCmp dateStr rest a b
      else match sd.direction with
        | .asc => if (fieldString dateStr b sd.field).data <
            (fieldString dateStr a sd.field).data then 1 else -1
        | .desc => if (fieldString dateStr a sd.field).data <
            (fieldString dateStr b sd.field).data then 1 else -1 := rfl

/-- One comparator step is nonpositive iff the head key strictly orders the
pair (in its direction) or ties and passes the decision to the rest. -/
theorem jsSortCmp_cons_le (dateStr : JsDate → String) (sd : SortDesc)
    (rest : List SortDesc) (a b : TxP) :
    jsSortCmp dateStr (sd :: rest) a b ≤ 0 ↔
      keyLt dateStr sd a b ∨
        (keyStr dateStr sd a = keyStr dateStr sd b ∧
          jsSortCmp dateStr rest a b ≤ 0) := by
  obtain ⟨fld, dir, pri⟩ := sd
  rw [jsSortCmp_cons]
  by_cases h : fieldString dateStr a fld = fieldString dateStr b fld
  · have hk : keyStr dateStr ⟨fld, dir, pri⟩ a =
        keyStr dateStr ⟨fld, dir, pri⟩ b := congrArg String.data h
    rw [if_pos h]
    constructor
    · intro hr
      exact .inr ⟨hk, hr⟩
    · rintro (hlt | ⟨_, hr⟩)
      · exfalso
        cases dir
        · exact lt_irrefl _ (hk ▸ (show keyStr dateStr ⟨fld, Dir.asc, pri⟩ a <
            keyStr dateStr ⟨fld, Dir.asc, pri⟩ b from hlt))
        · exact lt_irrefl _ (hk ▸ (show keyStr dateStr ⟨fld, Dir.desc, pri⟩ b <
            keyStr dateStr ⟨fld, Dir.desc, pri⟩ a from hlt))
      · exact hr
  · have hkne : keyStr dateStr ⟨fld, dir, pri⟩ a ≠
        keyStr dateStr ⟨fld, dir, pri⟩ b := fun hdd => h (String.ext hdd)
    rw [if_neg h]
    cases dir
    · show (if (fieldString dateStr b fld).data <
        (fieldString dateStr a fld).data then (1 : Int) else -1) ≤ 0 ↔ _
      by_cases hlt : (fieldString dateStr b fld).data <
          (fieldString dateStr a fld).data
      · rw [if_pos hlt]
        constructor
        · intro h10
          exact absurd h10 (by decide)
        · rintro (hk | ⟨he, _⟩)
          · exact absurd (show keyStr dateStr ⟨fld, Dir.asc, pri⟩ a <
              keyStr dateStr ⟨fld, Dir.asc, pri⟩ b from hk) (lt_asymm hlt)
          · exact absurd he hkne
      · rw [if_neg hlt]
        constructor
        · intro _
          left
          show keyStr dateStr ⟨fld, Dir.asc, pri⟩ a <
            keyStr dateStr ⟨fld, Dir.asc, pri⟩ b
          rcases lt_or_gt_of_ne hkne with h1 | h1
          · exact h1
          · exact absurd h1 hlt
        · intro _
          decide
    · show (if (fieldString dateStr a fld).data <
        (fieldString dateStr b fld).data then (1 : Int) else -1) ≤ 0 ↔ _
      by_cases hlt : (fieldString dateStr a fld).data <
          (fieldString dateStr b fld).data
      · rw [if_pos hlt]
        constructor
        · intro h10
          exact absurd h10 (by decide)
        · rintro (hk | ⟨he, _⟩)
          · exact absurd (show keyStr dateStr ⟨fld, Dir.desc, pri⟩ b <
              keyStr dateStr ⟨fld, Dir.desc, pri⟩ a from hk) (lt_asymm hlt)
          · exact absurd he hkne
      · rw [if_neg hlt]
        constructor
        · intro _
          left
          show keyStr dateStr ⟨fld, Dir.desc, pri⟩ b <
            keyStr dateStr ⟨fld, Dir.desc, pri⟩ a
          rcases lt_or_gt_of_ne hkne with h1 | h1
          · exact absurd h1 hlt
          · exact h1
        · intro _
          decide

theorem keyLt_trans (dateStr : JsDate → String) (sd : SortDesc) {a b c : TxP}
    (h1 : keyLt dateStr sd a b) (h2 : keyLt dateStr sd b c) :
    keyLt dateStr sd a c := by
  obtain ⟨fld, dir, pri⟩ := sd
  cases dir
  · exact lt_trans
      (show keyStr dateStr ⟨fld, Dir.asc, pri⟩ a <
        keyStr dateStr ⟨fld, Dir.asc, pri⟩ b from h1)
      (show keyStr dateStr ⟨fld, Dir.asc, pri⟩ b <
        keyStr dateStr ⟨fld, Dir.asc, pri⟩ c from h2)
  · exact lt_trans
      (show keyStr dateStr ⟨fld, Dir.desc, pri⟩ c <
        keyStr dateStr ⟨fld, Dir.desc, pri⟩ b from h2)
      (show keyStr dateStr ⟨fld, Dir.desc, pri⟩ b <
        keyStr dateStr ⟨fld, Dir.desc, pri⟩ a from h1)

theorem keyLt_congr_right (dateStr : JsDate → String) (sd : SortDesc)
    {a b c : TxP} (h : keyLt dateStr sd a b)
    (he : keyStr dateStr sd b = keyStr dateStr sd c) :
    keyLt dateStr sd a c := by
  obtain ⟨fld, dir, pri⟩ := sd
  cases dir
  · show keyStr dateStr ⟨fld, Dir.asc, pri⟩ a <
      keyStr dateStr ⟨fld, Dir.asc, pri⟩ c
    rw [← he]
    exact h
  · show keyStr dateStr ⟨fld, Dir.desc, pri⟩ c <
      keyStr dateStr ⟨fld, Dir.desc, pri⟩ a
    rw [← he]
    exact h

theorem keyLt_congr_left (dateStr : JsDate → String) (sd : SortDesc)
    {a b c : TxP} (he : keyStr dateStr sd a = keyStr dateStr sd b)
    (h : keyLt dateStr sd b c) : keyLt dateStr sd a c := by
  obtain ⟨fld, dir, pri⟩ := sd
  cases dir
  · show keyStr dateStr ⟨fld, Dir.asc, pri⟩ a <
      keyStr dateStr ⟨fld, Dir.asc, pri⟩ c
    rw [he]
    exact h
  · show keyStr dateStr ⟨fld, Dir.desc, pri⟩ c <
      keyStr dateStr ⟨fld, Dir.desc, pri⟩ a
    rw [he]
    exact h

/-- The comparator's "at most" relation is transitive (classic
lexicographic argument over the key list). -/
theorem jsSortCmp_le_trans (dateStr : JsDate → String) :
    ∀ (sorts : List SortDesc) (a b c : TxP),
      jsSortCmp dateStr sorts a b ≤ 0 → jsSortCmp dateStr sorts b c ≤ 0 →
        jsSortCmp dateStr sorts a c ≤ 0 := by
  intro sorts
  induction sorts with
  | nil =>
    intro a b c _ _
    exact le_refl 0
  | cons sd rest ih =>
    intro a b c hab hbc
    rw [jsSortCmp_cons_le] at hab hbc ⊢
    rcases hab with h1 | ⟨e1, r1⟩
    · rcases hbc with h2 | ⟨e2, r2⟩
      · exact .inl (keyLt_trans dateStr sd h1 h2)
      · exact .inl (keyLt_congr_right dateStr sd h1 e2)
    · rcases hbc with h2 | ⟨e2, r2⟩
      · exact .inl (keyLt_congr_left dateStr sd e1 h2)
      · exact .inr ⟨e1.trans e2, ih a b c r1 r2⟩

/-- Swapping the records negates the comparator. -/
theorem jsSortCmp_antisymm (dateStr : JsDate → String) :
    ∀ (sorts : List SortDesc) (a b : TxP),
      jsSortCmp dateStr sorts b a = -jsSortCmp dateStr sorts a b := by
  intro sorts
  induction sorts with
  | nil =>
    intro a b
    rfl
  | cons sd rest ih =>
    intro a b
    obtain ⟨fld, dir, pri⟩ := sd
    by_cases h : fieldString dateStr a fld = fieldString dateStr b fld
    · rw [jsSortCmp_cons, jsSortCmp_cons, if_pos h, if_pos h.symm]
      exact ih a b
    · have hd2 : (fieldString dateStr a fld).data ≠
          (fieldString dateStr b fld).data := fun hdd => h (String.ext hdd)
      rw [jsSortCmp_cons, jsSortCmp_cons, if_neg h,
        if_neg (fun he => h he.symm)]
      cases dir
      · show (if (fieldString dateStr a fld).data <
            (fieldString dateStr b fld).data then (1 : Int) else -1) =
          -(if (fieldString dateStr b fld).data <
            (fieldString dateStr a fld).data then (1 : Int) else -1)
        rcases lt_or_gt_of_ne hd2 with h1 | h1
        · rw [if_pos h1, if_neg (lt_asymm h1)]
          decide
        · rw [if_neg (lt_asymm h1), if_pos h1]
      · show (if (fieldString dateStr b fld).data <
            (fieldString dateStr a fld).data then (1 : Int) else -1) =
          -(if (fieldString dateStr a fld).data <
            (fieldString dateStr b fld).data then (1 : Int) else -1)
        rcases lt_or_gt_of_ne hd2 with h1 | h1
        · rw [if_neg (lt_asymm h1), if_pos h1]
        · rw [if_pos h1, if_neg (lt_asymm h1)]
          decide

theorem jsSortCmp_le_total (dateStr : JsDate → String) (sorts : List SortDesc)
    (a b : TxP) :
    jsSortCmp dateStr sorts a b ≤ 0 ∨ jsSortCmp dateStr sorts b a ≤ 0 := by
  rcases le_or_lt (jsSortCmp dateStr sorts a b) 0 with h | h
  · exact .inl h
  · right
    rw [jsSortCmp_antisymm]
    omega

/-- The source's comparator computes exactly the spec's key-by-key
lexicographic comparison. -/
theorem jsSortCmp_eq_spec (dateStr : JsDate → String) :
    ∀ (sorts : List SortDesc) (a b : TxP),
      jsSortCmp dateStr sorts a b = specSortCmp dateStr sorts a b := by
  intro sorts
  induction sorts with
  | nil =>
    intro a b
    rfl
  | cons sd rest ih =>
    intro a b
    obtain ⟨fld, dir, pri⟩ := sd
    have e : specSortCmp dateStr (⟨fld, dir, pri⟩ :: rest) a b =
        if strCmp3 (fieldString dateStr a fld)
            (fieldString dateStr b fld) = 0
        then specSortCmp dateStr rest a b
        else dirFlip dir (strCmp3 (fieldString dateStr a fld)
          (fieldString dateStr b fld)) := rfl
    rw [jsSortCmp_cons, e]
    by_cases h : fieldString dateStr a fld = fieldString dateStr b fld
    · have hc : strCmp3 (fieldString dateStr a fld)
          (fieldString dateStr b fld) = 0 := by
        unfold strCmp3
        rw [h, if_neg (lt_irrefl _), if_neg (lt_irrefl _)]
      rw [if_pos h, hc, if_pos rfl]
      exact ih a b
    · have hd2 : (fieldString dateStr a fld).data ≠
          (fieldString dateStr b fld).data := fun hdd => h (String.ext hdd)
      rw [if_neg h]
      rcases lt_or_gt_of_ne hd2 with h1 | h1
      · have hc : strCmp3 (fieldString dateStr a fld)
            (fieldString dateStr b fld) = -1 := by
          unfold strCmp3
          rw [if_pos h1]
        rw [hc, if_neg (show ¬(-1 : Int) = 0 by decide)]
        cases dir
        · show (if (fieldString dateStr b fld).data <
            (fieldString dateStr a fld).data then (1 : Int) else -1) =
            dirFlip Dir.asc (-1)
          rw [if_neg (lt_asymm h1)]
          decide
        · show (if (fieldString dateStr a fld).data <
            (fieldString dateStr b fld).data then (1 : Int) else -1) =
            dirFlip Dir.desc (-1)
          rw [if_pos h1]
          decide
      · have hc : strCmp3 (fieldString dateStr a fld)
            (fieldString dateStr b fld) = 1 := by
          unfold strCmp3
          rw [if_neg (lt_asymm h1), if_pos h1]
        rw [hc, if_neg (show ¬(1 : Int) = 0 by decide)]
        cases dir
        · show (if (fieldString dateStr b fld).data <
            (fieldString dateStr a fld).data then (1 : Int) else -1) =
            dirFlip Dir.asc 1
          rw [if_pos h1]
          decide
        · show (if (fieldString dateStr a fld).data <
            (fieldString dateStr b fld).data then (1 : Int) else -1) =
            dirFlip Dir.desc 1
          rw [if_neg (lt_asymm h1)]
          decide

/-- C7: a sort-only query returns a permutation of the records, pairwise
ordered by the comparator; the comparator computes the spec's key-by-key
lexicographic comparison of the rendered field strings (direction as a
sign flip, ties passed to the next key); and any two records that tie on
every key keep their original relative order (stable sort). -/
theorem claim_C7_query_sort (dateStr : JsDate → String)
    (sorts : List SortDesc) (base : List TxP) :
    (∀ a b, jsSortCmp dateStr sorts a b = specSortCmp dateStr sorts a b) ∧
      (runTxQuery dateStr base
        ⟨none, none, none, none, none, some sorts, none, none⟩).Perm base ∧
      List.Pairwise (fun a b => jsSortCmp dateStr sorts a b ≤ 0)
        (runTxQuery dateStr base
          ⟨none, none, none, none, none, some sorts, none, none⟩) ∧
      (∀ a b, jsSortCmp dateStr sorts a b = 0 → [a, b].Sublist base →
        [a, b].Sublist (runTxQuery dateStr base
          ⟨none, none, none, none, none, some sorts, none, none⟩)) := by
  have hrun : runTxQuery dateStr base
      ⟨none, none, none, none, none, some sorts, none, none⟩ =
      base.mergeSort (fun a b => decide (jsSortCmp dateStr sorts a b ≤ 0)) :=
    rfl
  have htr : ∀ a b c : TxP,
      decide (jsSortCmp dateStr sorts a b ≤ 0) = true →
      decide (jsSortCmp dateStr sorts b c ≤ 0) = true →
      decide (jsSortCmp dateStr sorts a c ≤ 0) = true := by
    intro a b c h1 h2
    exact decide_eq_true (jsSortCmp_le_trans dateStr sorts a b c
      (of_decide_eq_true h1) (of_decide_eq_true h2))
  have hto : ∀ a b : TxP,
      (decide (jsSortCmp dateStr sorts a b ≤ 0) ||
        decide (jsSortCmp dateStr sorts b a ≤ 0)) = true := by
    intro a b
    rcases jsSortCmp_le_total dateStr sorts a b with h | h
    · rw [decide_eq_true h, Bool.true_or]
    · rw [decide_eq_true h, Bool.or_true]
  refine ⟨jsSortCmp_eq_spec dateStr sorts, ?_, ?_, ?_⟩
  · rw [hrun]
    exact List.mergeSort_perm base _
  · rw [hrun]
    exact (List.sorted_mergeSort htr hto base).imp
      (fun h => of_decide_eq_true h)
  · intro a b h0 hsub
    rw [hrun]
    exact List.pair_sublist_mergeSort htr hto
      (decide_eq_true (le_of_eq h0)) hsub

def c7s : List SortDesc := [⟨TxField.amount, Dir.asc, 0⟩]

def c7q : TxQuery := ⟨none, none, none, none, none, some c7s, none, none⟩

def c7a : TxP :=
  { TxP.empty with
      amount := some (some 500)
      id := some (some "a") }

def c7b : TxP :=
  { TxP.empty with
      amount := some (some 500)
      id := some (some "b") }

def c7c : TxP :=
  { TxP.empty with
      amount := some (some 60)
      id := some (some "c") }

/-- C7 witness: an amount-ascending sort of three concrete records — a
comparator-vs-spec instance, the permutation and sortedness of the query
result, and stability for the two records with equal amounts. -/
theorem claim_C7_query_sort_witness :
    jsSortCmp (fun _ => "") c7s c7a c7c =
        specSortCmp (fun _ => "") c7s c7a c7c ∧
      (runTxQuery (fun _ => "") [c7c, c7a, c7b] c7q).Perm [c7c, c7a, c7b] ∧
      List.Pairwise (fun a b => jsSortCmp (fun _ => "") c7s a b ≤ 0)
        (runTxQuery (fun _ => "") [c7c, c7a, c7b] c7q) ∧
      [c7a, c7b].Sublist (runTxQuery (fun _ => "") [c7c, c7a, c7b] c7q) :=
  ⟨(claim_C7_query_sort (fun _ => "") c7s [c7c, c7a, c7b]).1 c7a c7c,
    (claim_C7_query_sort (fun _ => "") c7s [c7c, c7a, c7b]).2.1,
    (claim_C7_query_sort (fun _ => "") c7s [c7c, c7a, c7b]).2.2.1,
    (claim_C7_query_sort (fun _ => "") c7s [c7c, c7a, c7b]).2.2.2 c7a c7b
      (by decide) (List.Sublist.cons c7c (List.Sublist.refl [c7a, c7b]))⟩

/-! ### C9: monthly recurring expansion (spec-modelled) -/

/-- Projecting back the source element of every kept `filterMap` result
yields a sublist of the input. -/
theorem filterMap_proj_sublist {α β : Type} (f : α → Option β)
    (proj : β → α) (h : ∀ a b, f a = some b → proj b = a) :
    ∀ l : List α, ((l.filterMap f).map proj).Sublist l := by
  intro l
  induction l with
  | nil => exact List.Sublist.refl []
  | cons a l ih =>
    cases hfa : f a with
    | none =>
      rw [List.filterMap_cons_none hfa]
      exact List.Sublist.cons a ih
    | some b =>
      rw [List.filterMap_cons_some hfa, List.map_cons, h a b hfa]
      exact List.Sublist.cons₂ a ih

/-- The months of a period are pairwise distinct. -/
theorem monthsInPeriod_nodup (start stop : SDate) :
    (monthsInPeriod start stop).Nodup := by
  simp only [monthsInPeriod]
  apply List.Nodup.map
  · intro i j hij
    have h1 : ((start.year * 12 + (start.month - 1) + i) / 12,
        (start.year * 12 + (start.month - 1) + i) % 12 + 1) =
        ((start.year * 12 + (start.month - 1) + j) / 12,
          (start.year * 12 + (start.month - 1) + j) % 12 + 1) := hij
    rw [Prod.mk.injEq] at h1
    omega
  · exact List.nodup_range _

/-- C9 (modelled from the spec; the repository stores recurring rules but
ships no expansion code): the 2024-01-31 monthly rule over February 2024
yields exactly the single occurrence 2024-02-29; and in general every
produced occurrence falls on the rule's day-of-month clamped to its
month's last day, lies within the period and the rule's active range, at
most one occurrence per month of the period is produced, and every month
of the period whose clamped candidate passes the range checks does
produce it. -/
theorem claim_C9_monthly_expansion (ruleStart : SDate)
    (ruleEnd : Option SDate) (start stop : SDate) :
    expandMonthly ⟨2024, 1, 31⟩ none ⟨2024, 2, 1⟩ ⟨2024, 2, 29⟩ =
        [⟨2024, 2, 29⟩] ∧
      (∀ d ∈ expandMonthly ruleStart ruleEnd start stop,
        d.day = min ruleStart.day (lastDayOfMonth d.year d.month) ∧
          sdateLeB start d = true ∧ sdateLeB d stop = true ∧
          keepOcc ruleStart ruleEnd start stop d = true ∧
          (d.year, d.month) ∈ monthsInPeriod start stop) ∧
      ((expandMonthly ruleStart ruleEnd start stop).map
          (fun d => (d.year, d.month))).Nodup ∧
      (∀ ym ∈ monthsInPeriod start stop,
        keepOcc ruleStart ruleEnd start stop (clampedDay ruleStart ym) =
            true →
          clampedDay ruleStart ym ∈
            expandMonthly ruleStart ruleEnd start stop) := by
  refine ⟨by decide, ?_, ?_, ?_⟩
  · intro d hd
    simp only [expandMonthly, List.mem_filterMap] at hd
    obtain ⟨ym, hym, hf⟩ := hd
    by_cases hc : keepOcc ruleStart ruleEnd start stop
        (clampedDay ruleStart ym) = true
    · rw [if_pos hc] at hf
      obtain rfl := Option.some.inj hf
      have h1 := hc
      simp only [keepOcc, Bool.and_eq_true] at h1
      exact ⟨rfl, h1.1.1.2, h1.1.2, hc, hym⟩
    · rw [if_neg hc] at hf
      exact Option.noConfusion hf
  · have hproj : ∀ (ym : Nat × Nat) (d : SDate),
        (if keepOcc ruleStart ruleEnd start stop (clampedDay ruleStart ym) =
            true then some (clampedDay ruleStart ym) else none) = some d →
        (d.year, d.month) = ym := by
      intro ym d hf
      by_cases hc : keepOcc ruleStart ruleEnd start stop
          (clampedDay ruleStart ym) = true
      · rw [if_pos hc] at hf
        obtain rfl := Option.some.inj hf
        rfl
      · rw [if_neg hc] at hf
        exact Option.noConfusion hf
    exact List.Nodup.sublist
      (filterMap_proj_sublist _ _ hproj (monthsInPeriod start stop))
      (monthsInPeriod_nodup start stop)
  · intro ym hym hc
    simp only [expandMonthly, List.mem_filterMap]
    exact ⟨ym, hym, by rw [if_pos hc]⟩

/-- C9 witness: the leap-year boundary instance — the occurrence
2024-02-29 of the 2024-01-31 monthly rule satisfies the clamping and
range facts, and February 2024's clamped candidate is produced. -/
theorem claim_C9_monthly_expansion_witness :
    ((⟨2024, 2, 29⟩ : SDate).day =
        min (⟨2024, 1, 31⟩ : SDate).day
          (lastDayOfMonth (⟨2024, 2, 29⟩ : SDate).year
            (⟨2024, 2, 29⟩ : SDate).month) ∧
      sdateLeB ⟨2024, 2, 1⟩ ⟨2024, 2, 29⟩ = true ∧
      sdateLeB ⟨2024, 2, 29⟩ ⟨2024, 2, 29⟩ = true ∧
      keepOcc ⟨2024, 1, 31⟩ none ⟨2024, 2, 1⟩ ⟨2024, 2, 29⟩
          ⟨2024, 2, 29⟩ = true ∧
      ((⟨2024, 2, 29⟩ : SDate).year, (⟨2024, 2, 29⟩ : SDate).month) ∈
        monthsInPeriod ⟨2024, 2, 1⟩ ⟨2024, 2, 29⟩) ∧
    clampedDay ⟨2024, 1, 31⟩ (2024, 2) ∈
      expandMonthly ⟨2024, 1, 31⟩ none ⟨2024, 2, 1⟩ ⟨2024, 2, 29⟩ :=
  ⟨(claim_C9_monthly_expansion ⟨2024, 1, 31⟩ none ⟨2024, 2, 1⟩
      ⟨2024, 2, 29⟩).2.1 ⟨2024, 2, 29⟩ (by decide),
    (claim_C9_monthly_expansion ⟨2024, 1, 31⟩ none ⟨2024, 2, 1⟩
      ⟨2024, 2, 29⟩).2.2.2 (2024, 2) (by decide) (by decide)⟩

end FinanceNote
